import Mathlib

namespace LO

set_option maxRecDepth 16384

/-!
Verification of the two extracted cores of this repository against their
natural-language specification.

Core A is the ETS forecasting engine of `sc/source/core/tool/interpr8.cxx`
(class `ScETSForecastCalculation`).  Its double arithmetic is embedded as
exact rational arithmetic (`ℚ`) where only field operations occur, and as
real arithmetic (`ℝ`) where `sqrt` occurs; machine-float rounding is out of
scope.  Core B is the XML signature manager of
`xmlsecurity/source/helper/xsecctl.cxx` and
`xmlsecurity/source/helper/documentsignaturemanager.cxx`, embedded as pure
state-passing functions over explicit state records and SAX event lists.
-/

/-- Error codes of the calculation object (`mnErrorValue`); the subset of
the interpreter error codes that `ScETSForecastCalculation` assigns. -/
inductive FcErr
  | noValue
  | illegalFPOperation
  | divisionByZero
  | unknownState
deriving DecidableEq, Repr

/-- One data point of `maRange` (struct `DataPoint` of interpr8.cxx). -/
structure DataPoint where
  X : ℚ
  Y : ℚ
deriving DecidableEq, Repr

/-! ## Core A, initializer (`initData`, `prefillTrendData`, `prefillPerIdx`,
`prefillBaseData` of interpr8.cxx).

The `Y : List ℚ` argument is the `Y` column of the preprocessed, X-sorted,
duplicate-free `maRange`; `P` is `mnSmplInPrd`.  Array reads `maRange[i].Y`
become `Y.getD i 0`; all indices used by the source are in bounds on the
inputs the source reaches, so the default is never taken there. -/

/-- `ScETSForecastCalculation::prefillTrendData` (interpr8.cxx:401-423).
DES: `(Y[N-1] - Y[0]) / (N-1)`.  Seasonal: requires `N ≥ 2·P`
(else `errNoValue`), then `(Σ_{i<P} (Y[i+P] - Y[i])) / P²`. -/
def prefillTrendData (bEDS : Bool) (Y : List ℚ) (P : ℕ) : Except FcErr ℚ :=
  if bEDS then
    .ok ((Y.getD (Y.length - 1) 0 - Y.getD 0 0) / ((Y.length - 1 : ℕ) : ℚ))
  else if Y.length < 2 * P then
    .error .noValue
  else
    .ok ((∑ i ∈ Finset.range P, (Y.getD (i + P) 0 - Y.getD i 0)) / ((P * P : ℕ) : ℚ))

/-- The per-period averages `aPeriodAverage` of
`ScETSForecastCalculation::prefillPerIdx` (interpr8.cxx:436-449). -/
def periodAverages (Y : List ℚ) (P : ℕ) : List ℚ :=
  (List.range (Y.length / P)).map
    (fun i => (∑ j ∈ Finset.range P, Y.getD (i * P + j) 0) / (P : ℚ))

/-- `ScETSForecastCalculation::prefillPerIdx` (interpr8.cxx:425-470), the
`!bEDS` branch.  `mnSmplInPrd == 0` gives `errUnknownState`; a zero period
average gives `errDivisionByZero`; otherwise seasonal index `j` is the
across-period average of the detrended (additive) or detrended-ratio
(multiplicative) value, with detrend adjustment
`(j - 0.5·(P-1))·Trend[0]`. -/
def prefillPerIdx (bAdditive : Bool) (Y : List ℚ) (P : ℕ) (trend0 : ℚ) :
    Except FcErr (List ℚ) :=
  if P = 0 then
    .error .unknownState
  else
    let nPeriods := Y.length / P
    let avgs := periodAverages Y P
    if avgs.any (fun a => a = 0) then
      .error .divisionByZero
    else
      .ok ((List.range P).map (fun j =>
        (∑ i ∈ Finset.range nPeriods,
          (if bAdditive then
            Y.getD (i * P + j) 0 -
              (avgs.getD i 0 + ((j : ℚ) - (1/2) * ((P - 1 : ℕ) : ℚ)) * trend0)
          else
            Y.getD (i * P + j) 0 /
              (avgs.getD i 0 + ((j : ℚ) - (1/2) * ((P - 1 : ℕ) : ℚ)) * trend0)))
          / (nPeriods : ℚ)))

/-- `ScETSForecastCalculation::prefillBaseData` (interpr8.cxx:472-479):
`Base[0] = Y[0]` when `bEDS`, else `Base[0] = Y[0] / PerIdx[0]`. -/
def prefillBaseData (bEDS : Bool) (Y : List ℚ) (perIdx : List ℚ) : ℚ :=
  if bEDS then Y.getD 0 0 else Y.getD 0 0 / perIdx.getD 0 0

/-- Result of `initData`: the seeded scalars and the seasonal index array. -/
structure InitState where
  base0 : ℚ
  trend0 : ℚ
  perIdx : List ℚ
  forecast0 : ℚ
deriving DecidableEq, Repr

/-- `ScETSForecastCalculation::initData` (interpr8.cxx:380-399):
`Forecast[0] = Y[0]`, then `prefillTrendData`, `prefillPerIdx` (seasonal
only; `mpPerIdx` stays unallocated for DES), `prefillBaseData`, with the
first failing stage's error propagated. -/
def initData (bEDS bAdditive : Bool) (Y : List ℚ) (P : ℕ) :
    Except FcErr InitState :=
  match prefillTrendData bEDS Y P with
  | .error e => .error e
  | .ok trend0 =>
    match (if bEDS then .ok [] else prefillPerIdx bAdditive Y P trend0) with
    | .error e => .error e
    | .ok perIdx =>
      .ok { base0 := prefillBaseData bEDS Y perIdx
            trend0 := trend0
            perIdx := perIdx
            forecast0 := Y.getD 0 0 }

/-! ## Core A, period detector (`CalcPeriodLen`, interpr8.cxx:527-551). -/

/-- The largest finite `double` (`std::numeric_limits<double>::max()`),
the initial value of `fBestME`. -/
def DBL_MAX : ℚ := (2 ^ 53 - 1) * 2 ^ 971

/-- The mean error computed by one iteration of
`ScETSForecastCalculation::CalcPeriodLen` (interpr8.cxx:534-542) for
candidate period `P`: the sum over `i ∈ [nStart, N-P)` of
`|(Y[i]-Y[i-1]) - (Y[P+i]-Y[P+i-1])|` with `nPeriods = N/P` and
`nStart = N - nPeriods·P + 1`, divided by `(nPeriods-1)·P - 1`
(`SCSIZE` arithmetic, hence truncated `ℕ` subtraction and division). -/
def periodMeanError (Y : List ℚ) (P : ℕ) : ℚ :=
  let N := Y.length
  let nPeriods := N / P
  let nStart := N - nPeriods * P + 1
  (∑ i ∈ Finset.Ico nStart (N - P),
      |(Y.getD i 0 - Y.getD (i - 1) 0) - (Y.getD (P + i) 0 - Y.getD (P + i - 1) 0)|)
    / (((nPeriods - 1) * P - 1 : ℕ) : ℚ)

/-- The candidate loop of `CalcPeriodLen` (interpr8.cxx:532-549):
candidates run from the current value `p` down to `2`; a candidate
replaces the running best when its mean error is strictly smaller than
`bestME` or exactly zero (`fMeanError < fBestME || fMeanError == 0.0`). -/
def calcPLGo (Y : List ℚ) : ℕ → ℕ → ℚ → ℕ
  | 0, best, _ => best
  | 1, best, _ => best
  | p + 2, best, bestME =>
    let e := periodMeanError Y (p + 2)
    if e < bestME ∨ e = 0 then calcPLGo Y (p + 1) (p + 2) e
    else calcPLGo Y (p + 1) best bestME

/-- `ScETSForecastCalculation::CalcPeriodLen` (interpr8.cxx:527-551):
`nBestVal` starts at `mnCount`, `fBestME` at `DBL_MAX`, and the loop runs
`nPeriodLen` from `mnCount / 2` down to `2`. -/
def calcPeriodLen (Y : List ℚ) : ℕ :=
  calcPLGo Y (Y.length / 2) Y.length DBL_MAX

/-! ## Core A, gap filling (`PreprocessDataRange`, interpr8.cxx:335-373,
numeric (non-month) axis).

`l` is `maRange` after duplicate aggregation (sorted, strictly increasing
X), `step` is `mfStepSize`, `N0` is `fOriginalCount` (the point count when
gap filling starts).  The inner `for ( fXGap = X[i-1]+step; fXGap <
X[i]; fXGap += step )` loop is embedded with an explicit fuel that
bounds its iteration count; the outer loop, which inserts the synthetic
points before position `i` and skips past them, is embedded structurally
on the remaining point list (inserted points are never re-examined, since
`i` is advanced past them). -/

/-- Fuel bound for one gap's insertion loop: enough iterations to step
from `x0 + step` past `x1`. -/
def gapFuel (x0 x1 step : ℚ) : ℕ := (((x1 - x0) / step).ceil).toNat + 1

/-- Number of iterations of the insertion loop for one gap (the points
`xGap, xGap+step, ...` strictly below `xHi`). -/
def gapLen (fuel : ℕ) (xGap xHi step : ℚ) : ℕ :=
  match fuel with
  | 0 => 0
  | f + 1 => if xGap < xHi then gapLen f (xGap + step) xHi step + 1 else 0

/-- The insertion loop for one gap (interpr8.cxx:358-370): each inserted
point is `(fXGap, bDataCompletion ? fYGap : 0)` (`yIns` below), and after
each insertion `nMissingXCount` is incremented and
`nMissingXCount / fOriginalCount > 0.3` aborts with `errNoValue`. -/
def gapInsertLoop (fuel : ℕ) (xGap xHi step yIns : ℚ) (nMissing N0 : ℕ) :
    Except FcErr (List DataPoint × ℕ) :=
  match fuel with
  | 0 => .ok ([], nMissing)
  | f + 1 =>
    if xGap < xHi then
      if ((nMissing + 1 : ℕ) : ℚ) / (N0 : ℚ) > 3/10 then .error .noValue
      else
        match gapInsertLoop f (xGap + step) xHi step yIns (nMissing + 1) N0 with
        | .error e => .error e
        | .ok (rest, m) => .ok (⟨xGap, yIns⟩ :: rest, m)
    else .ok ([], nMissing)

/-- The outer gap-filling loop (interpr8.cxx:342-372): for each adjacent
pair whose distance exceeds `mfStepSize`, compute
`fYGap = (Y[i] + Y[i-1]) / 2` and insert the synthetic points; the index
then skips past the inserted points, so the traversal visits exactly the
original adjacent pairs. -/
def gapFillGo (bDataCompletion : Bool) (step : ℚ) (N0 : ℕ) :
    ℕ → List DataPoint → Except FcErr (List DataPoint × ℕ)
  | nMissing, [] => .ok ([], nMissing)
  | nMissing, [p] => .ok ([p], nMissing)
  | nMissing, p :: q :: rest =>
    if q.X - p.X > step then
      let fYGap := (q.Y + p.Y) / 2
      match gapInsertLoop (gapFuel p.X q.X step) (p.X + step) q.X step
              (if bDataCompletion then fYGap else 0) nMissing N0 with
      | .error e => .error e
      | .ok (ins, m) =>
        match gapFillGo bDataCompletion step N0 m (q :: rest) with
        | .error e => .error e
        | .ok (out, m2) => .ok (p :: (ins ++ out), m2)
    else
      match gapFillGo bDataCompletion step N0 nMissing (q :: rest) with
      | .error e => .error e
      | .ok (out, m2) => .ok (p :: out, m2)

/-- The gap-filling stage of `PreprocessDataRange`: on success the filled
range, on failure the error code (`false` return with `mnErrorValue` set,
after which `ScForecast_Ets` pushes the error and writes no forecast
output). -/
def gapFill (bDataCompletion : Bool) (step : ℚ) (l : List DataPoint) :
    Except FcErr (List DataPoint) :=
  match gapFillGo bDataCompletion step l.length 0 l with
  | .error e => .error e
  | .ok (out, _) => .ok out

/-- The total number of synthetic points gap filling would insert for
`l`: the sum of the per-gap insertion counts over adjacent pairs. -/
def wouldInsert (step : ℚ) : List DataPoint → ℕ
  | [] => 0
  | [_] => 0
  | p :: q :: rest =>
    (if q.X - p.X > step then gapLen (gapFuel p.X q.X step) (p.X + step) q.X step else 0)
      + wouldInsert step (q :: rest)

/-- Spec-side description of the synthetic points filling one gap: the
points `x, x+step, x+2*step, ...` strictly below `xHi`, each carrying the
fixed ordinate `y` (no error accounting).  Stated from the claim text, to
be compared with `gapInsertLoop` (the embedding of the source loop). -/
def specGapPoints (fuel : ℕ) (x xHi step y : ℚ) : List DataPoint :=
  match fuel with
  | 0 => []
  | f + 1 =>
    if x < xHi then DataPoint.mk x y :: specGapPoints f (x + step) xHi step y else []

/-- Spec-side description of a successful gap fill, stated from the claim
text: every original point is kept in order, and between each adjacent
pair `(p, q)` whose distance exceeds the step the synthetic points at
step intervals are inserted, each with ordinate the mean of the two
bracketing ordinates `(q.Y + p.Y) / 2` when data completion is enabled,
else `0`.  To be compared with `gapFill` (the embedding of the source). -/
def specGapFill (c : Bool) (step : ℚ) : List DataPoint → List DataPoint
  | [] => []
  | [p] => [p]
  | p :: q :: rest =>
    p :: ((if q.X - p.X > step then
            specGapPoints (gapFuel p.X q.X step) (p.X + step) q.X step
              (if c then (q.Y + p.Y) / 2 else 0)
          else []) ++ specGapFill c step (q :: rest))

/-! ## Core A, smoothing-constant optimizer (`CalcAlphaBetaGamma`,
`CalcBetaGamma`, `CalcGamma`, interpr8.cxx:553-763).

All three routines run the same three-point bisection; the state they
mutate (`mfAlpha`/`mfBeta`/`mfGamma` plus `refill()` recomputing `mfMSE`)
is embedded as an objective function `E : ℚ → ℚ` mapping the parameter
value to the MSE that `refill()` produces at that value (with the other
parameters re-optimized by the nested calls, as in the source). -/

/-- `cfMinABCResolution` (interpr8.cxx:95). -/
def cfMinABCResolution : ℚ := 1/1000

/-- The bisection loop (interpr8.cxx:594-614, identically 670-687 and
730-746): while `f2 - f1 > cfMinABCResolution`, if `fE2 > fE0` shrink to
`(f0, (f0+f1)/2, f1)` (the `mfMSE` at the old midpoint becomes the new
`fE2`), else shrink to `(f1, (f1+f2)/2, f2)`; each round re-evaluates the
objective at the new midpoint (`refill()`).  The fuel argument bounds the
iterations; 20 is enough since the width starts at 1/2 and halves each
round. -/
def tsLoop (E : ℚ → ℚ) : ℕ → ℚ × ℚ × ℚ → ℚ × ℚ × ℚ → (ℚ × ℚ × ℚ) × (ℚ × ℚ × ℚ)
  | 0, fs, es => (fs, es)
  | fuel + 1, (f0, f1, f2), (e0, e1, e2) =>
    if f2 - f1 > cfMinABCResolution then
      if e2 > e0 then
        tsLoop E fuel (f0, (f0 + f1) / 2, f1) (e0, E ((f0 + f1) / 2), e1)
      else
        tsLoop E fuel (f1, (f1 + f2) / 2, f2) (e1, E ((f1 + f2) / 2), e2)
    else ((f0, f1, f2), (e0, e1, e2))

/-- The final adoption step (interpr8.cxx:615-638, identically 688-706
and 747-763): keep the midpoint `f1` unless the lower endpoint of the
final triple strictly improves on it. -/
def tsSelect (fs es : ℚ × ℚ × ℚ) : ℚ :=
  if es.2.2 > es.1 then (if es.1 < es.2.1 then fs.1 else fs.2.1)
  else (if es.2.2 < es.2.1 then fs.2.2 else fs.2.1)

/-- One parameter's optimization (`CalcGamma`, interpr8.cxx:708-763, and
the identically shaped `CalcBetaGamma`/`CalcAlphaBetaGamma` bodies):
evaluate the objective at 0, 1 and 0.5; if the three values coincide set
the parameter to 0 and return; else run the bisection loop and adopt. -/
def ternarySearch (E : ℚ → ℚ) : ℚ :=
  if E 0 = E (1/2) ∧ E (1/2) = E 1 then 0
  else
    tsSelect (tsLoop E 20 (0, 1/2, 1) (E 0, E (1/2), E 1)).1
      (tsLoop E 20 (0, 1/2, 1) (E 0, E (1/2), E 1)).2

/-- `ScETSForecastCalculation::CalcGamma` (interpr8.cxx:708-763), with
`E γ` the `mfMSE` that `refill()` yields at `mfGamma = γ`. -/
def CalcGamma (E : ℚ → ℚ) : ℚ := ternarySearch E

/-- `ScETSForecastCalculation::CalcBetaGamma` (interpr8.cxx:644-706):
optimizes β whose objective re-optimizes γ at each candidate (each trial
sets `mfBeta` and calls `CalcGamma`, then `refill()`); the final state
carries the γ optimum at the chosen β. -/
def CalcBetaGamma (E2 : ℚ → ℚ → ℚ) : ℚ × ℚ :=
  (ternarySearch (fun b => E2 b (CalcGamma (E2 b))),
   CalcGamma (E2 (ternarySearch (fun b => E2 b (CalcGamma (E2 b))))))

/-- `ScETSForecastCalculation::CalcAlphaBetaGamma` (interpr8.cxx:553-642):
optimizes α whose objective runs `CalcGamma` (DES, with `mfBeta = 0`) or
`CalcBetaGamma` (seasonal) at each candidate; returns `(α, β, γ)`. -/
def CalcAlphaBetaGamma (bEDS : Bool) (E3 : ℚ → ℚ → ℚ → ℚ) : ℚ × ℚ × ℚ :=
  if bEDS then
    (ternarySearch (fun a => E3 a 0 (CalcGamma (fun g => E3 a 0 g))), 0,
     CalcGamma (fun g =>
       E3 (ternarySearch (fun a => E3 a 0 (CalcGamma (fun g => E3 a 0 g)))) 0 g))
  else
    (ternarySearch (fun a =>
        E3 a (CalcBetaGamma (fun b g => E3 a b g)).1
          (CalcBetaGamma (fun b g => E3 a b g)).2),
     CalcBetaGamma (fun b g =>
        E3 (ternarySearch (fun a =>
          E3 a (CalcBetaGamma (fun b g => E3 a b g)).1
            (CalcBetaGamma (fun b g => E3 a b g)).2)) b g))

/-! ## Core A, duplicate aggregation (`PreprocessDataRange`,
interpr8.cxx:212-315, numeric (non-month) axis).

Every `maRange[i]` read of the source becomes a checked access: an
out-of-range index yields the distinguished error `AggErr.oob` (in C++
this is `std::vector::operator[]` undefined behaviour).  The aggregation
`while` loops evaluate `maRange[i].X == maRange[i-1].X` *before* testing
`i < mnCount`, exactly as the source's `&&` does. -/

/-- Abnormal outcomes of the duplicate-aggregation stage. -/
inductive AggErr
  | oob
  | noValue
deriving DecidableEq, Repr

/-- Checked `maRange[i]` read. -/
def getE (l : List DataPoint) (i : ℕ) : Except AggErr DataPoint :=
  match l[i]? with
  | some p => .ok p
  | none => .error .oob

/-- `maRange[i-1].Y = y` write-back after a run is collapsed (always in
bounds in the source since `i ≥ 1`). -/
def setY (l : List DataPoint) (i : ℕ) (y : ℚ) : List DataPoint :=
  match l[i]? with
  | some p => l.set i ⟨p.X, y⟩
  | none => l

/-- The `while` loop of cases 1 (AVERAGE) and 7 (SUM)
(interpr8.cxx:234-240): accumulate `fTmp += Y[i]`, count, erase. -/
def aggLoopSum (fuel : ℕ) (l : List DataPoint) (i : ℕ) (fTmp : ℚ) (nCounter : ℕ) :
    Except AggErr (List DataPoint × ℚ × ℕ) :=
  match fuel with
  | 0 => .ok (l, fTmp, nCounter)
  | f + 1 =>
    match getE l i, getE l (i - 1) with
    | .error e, _ => .error e
    | .ok _, .error e => .error e
    | .ok pcur, .ok pprev =>
      if pcur.X = pprev.X ∧ i < l.length then
        aggLoopSum f (l.eraseIdx i) i (fTmp + pcur.Y) (nCounter + 1)
      else .ok (l, fTmp, nCounter)

/-- The `while` loop of cases 2/3 (COUNT/COUNTA) (interpr8.cxx:246-251). -/
def aggLoopCount (fuel : ℕ) (l : List DataPoint) (i : ℕ) (nCounter : ℕ) :
    Except AggErr (List DataPoint × ℕ) :=
  match fuel with
  | 0 => .ok (l, nCounter)
  | f + 1 =>
    match getE l i, getE l (i - 1) with
    | .error e, _ => .error e
    | .ok _, .error e => .error e
    | .ok pcur, .ok pprev =>
      if pcur.X = pprev.X ∧ i < l.length then
        aggLoopCount f (l.eraseIdx i) i (nCounter + 1)
      else .ok (l, nCounter)

/-- The `while` loop of case 4 (MAX) (interpr8.cxx:256-262). -/
def aggLoopMax (fuel : ℕ) (l : List DataPoint) (i : ℕ) (fTmp : ℚ) :
    Except AggErr (List DataPoint × ℚ) :=
  match fuel with
  | 0 => .ok (l, fTmp)
  | f + 1 =>
    match getE l i, getE l (i - 1) with
    | .error e, _ => .error e
    | .ok _, .error e => .error e
    | .ok pcur, .ok pprev =>
      if pcur.X = pprev.X ∧ i < l.length then
        aggLoopMax f (l.eraseIdx i) i (if pcur.Y > fTmp then pcur.Y else fTmp)
      else .ok (l, fTmp)

/-- The `while` loop of case 6 (MIN) (interpr8.cxx:287-293). -/
def aggLoopMin (fuel : ℕ) (l : List DataPoint) (i : ℕ) (fTmp : ℚ) :
    Except AggErr (List DataPoint × ℚ) :=
  match fuel with
  | 0 => .ok (l, fTmp)
  | f + 1 =>
    match getE l i, getE l (i - 1) with
    | .error e, _ => .error e
    | .ok _, .error e => .error e
    | .ok pcur, .ok pprev =>
      if pcur.X = pprev.X ∧ i < l.length then
        aggLoopMin f (l.eraseIdx i) i (if pcur.Y < fTmp then pcur.Y else fTmp)
      else .ok (l, fTmp)

/-- The `while` loop of case 5 (MEDIAN) (interpr8.cxx:270-276). -/
def aggLoopMedian (fuel : ℕ) (l : List DataPoint) (i : ℕ) (aTmp : List ℚ) (nCounter : ℕ) :
    Except AggErr (List DataPoint × List ℚ × ℕ) :=
  match fuel with
  | 0 => .ok (l, aTmp, nCounter)
  | f + 1 =>
    match getE l i, getE l (i - 1) with
    | .error e, _ => .error e
    | .ok _, .error e => .error e
    | .ok pcur, .ok pprev =>
      if pcur.X = pprev.X ∧ i < l.length then
        aggLoopMedian f (l.eraseIdx i) i (aTmp ++ [pcur.Y]) (nCounter + 1)
      else .ok (l, aTmp, nCounter)

/-- Ascending insertion sort, standing in for `std::sort` on `aTmp`. -/
def insertSorted (x : ℚ) : List ℚ → List ℚ
  | [] => [x]
  | y :: ys => if x ≤ y then x :: y :: ys else y :: insertSorted x ys

/-- Ascending sort of `aTmp` (median case). -/
def sortQ : List ℚ → List ℚ
  | [] => []
  | x :: xs => insertSorted x (sortQ xs)

/-- The `switch ( nAggregation )` body (interpr8.cxx:230-296): runs the
run-collapsing loop of the given mode starting from `fTmp = Y[i-1]`,
`nCounter = 1`, and produces the collapsed list together with the value
written back to `Y[i-1]`. -/
def aggDispatch (nAggregation : ℕ) (l : List DataPoint) (i : ℕ) :
    Except AggErr (List DataPoint × ℚ) :=
  let fTmp := (l.getD (i - 1) ⟨0, 0⟩).Y
  if nAggregation = 1 ∨ nAggregation = 7 then
    match aggLoopSum (l.length + 1) l i fTmp 1 with
    | .error e => .error e
    | .ok (l2, f, n) => .ok (l2, if nAggregation = 1 then f / (n : ℚ) else f)
  else if nAggregation = 2 ∨ nAggregation = 3 then
    match aggLoopCount (l.length + 1) l i 1 with
    | .error e => .error e
    | .ok (l2, n) => .ok (l2, (n : ℚ))
  else if nAggregation = 4 then
    match aggLoopMax (l.length + 1) l i fTmp with
    | .error e => .error e
    | .ok (l2, f) => .ok (l2, f)
  else if nAggregation = 5 then
    match aggLoopMedian (l.length + 1) l i [fTmp] 1 with
    | .error e => .error e
    | .ok (l2, aTmp, n) =>
      .ok (l2, if n % 2 = 1 then (sortQ aTmp).getD (n / 2) 0
               else ((sortQ aTmp).getD (n / 2) 0 + (sortQ aTmp).getD (n / 2 - 1) 0) / 2)
  else if nAggregation = 6 then
    match aggLoopMin (l.length + 1) l i fTmp with
    | .error e => .error e
    | .ok (l2, f) => .ok (l2, f)
  else .ok (l, fTmp)

/-- The outer `for ( i = 1; i < mnCount; i++ )` loop of
`PreprocessDataRange` (interpr8.cxx:212-315), numeric axis: step
discovery with duplicate-run collapsing; after a collapse, if
`i < mnCount - 1` the index advances over the collapsed run and the step
is recomputed from the two points after it, else the current minimum step
is kept. -/
def dupAggOuter (nAggregation : ℕ) :
    ℕ → List DataPoint → ℕ → ℚ → Except AggErr (List DataPoint × ℚ)
  | 0, l, _, stepSize => .ok (l, stepSize)
  | fuel + 1, l, i, stepSize =>
    if i < l.length then
      let fStep := (l.getD i ⟨0, 0⟩).X - (l.getD (i - 1) ⟨0, 0⟩).X
      if fStep = 0 then
        if nAggregation = 0 then .error .noValue
        else
          match aggDispatch nAggregation l i with
          | .error e => .error e
          | .ok (l2, yNew) =>
            let l3 := setY l2 (i - 1) yNew
            if i < l3.length - 1 then
              let fStep2 := (l3.getD (i + 1) ⟨0, 0⟩).X - (l3.getD i ⟨0, 0⟩).X
              dupAggOuter nAggregation fuel l3 (i + 2)
                (if fStep2 < stepSize then fStep2 else stepSize)
            else
              dupAggOuter nAggregation fuel l3 (i + 1) stepSize
      else
        dupAggOuter nAggregation fuel l (i + 1)
          (if fStep < stepSize then fStep else stepSize)
    else .ok (l, stepSize)

/-- The duplicate-aggregation and step-discovery stage: `mfStepSize`
starts at the largest double and the loop starts at `i = 1`. -/
def dupAggregate (nAggregation : ℕ) (l : List DataPoint) :
    Except AggErr (List DataPoint × ℚ) :=
  dupAggOuter nAggregation (2 * l.length + 2) l 1 DBL_MAX

/-! ## Core A, analytic DES prediction intervals
(`GetEDSPredictionIntervals`, interpr8.cxx:1105-1165).

Real arithmetic (`sqrt` occurs).  `z = gaussinv((1+L)/2)` and
`rmse = mfRMSE` are computed outside the cited code (`gaussinv` is an
external interpreter helper), so they enter as parameters.  The `SCSIZE`
conversion `nSteps = (fTarget/mfStepSize) - 1` truncates toward zero and
`fmod` is `x - y·trunc(x/y)`; for the positive operands reached here
(targets past `X[N-1]`, positive step) truncation equals `Int.floor`. -/

/-- The coefficient array `c` (interpr8.cxx:1131-1140): with
`o = 1 - fPILevel`,
`c[i] = sqrt(1 + (L/(1+o)³)·((1+4o+5o²) + 2i·L·(1+3o) + 2i²·L²))`. -/
noncomputable def cCoef (L : ℝ) (i : ℕ) : ℝ :=
  Real.sqrt (1 + (L / (1 + (1 - L)) ^ 3) *
    ((1 + 4 * (1 - L) + 5 * (1 - L) * (1 - L)) +
      2 * (i : ℝ) * L * (1 + 3 * (1 - L)) +
      2 * ((i * i : ℕ) : ℝ) * L * L))

/-- One target's prediction-interval value in
`GetEDSPredictionIntervals` (interpr8.cxx:1147-1161), for
`target = fTarget - X[N-1]`: `nSteps = (target/step) - 1` (`SCSIZE`),
`fPI = z·RMSE·c[nSteps]/c[0]`, interpolated toward
`z·RMSE·c[nSteps+1]/c[0]` when `fmod(target, step) ≠ 0`. -/
noncomputable def GetEDSPredictionIntervalAt (z rmse L step target : ℝ) : ℝ :=
  if target - step * (⌊target / step⌋ : ℤ) ≠ 0 then
    z * rmse * cCoef L (⌊target / step⌋ - 1).toNat / cCoef L 0 +
      (target - step * (⌊target / step⌋ : ℤ)) *
        (z * rmse * cCoef L ((⌊target / step⌋ - 1).toNat + 1) / cCoef L 0 -
          z * rmse * cCoef L (⌊target / step⌋ - 1).toNat / cCoef L 0)
  else z * rmse * cCoef L (⌊target / step⌋ - 1).toNat / cCoef L 0

/-! ## Core B, OOXML signature serializer
(`XSecController::exportOOXMLSignature` and the two blacklists,
xmlsecurity/source/helper/xsecctl.cxx:986-1350).

The serializer's output is embedded as the list of SAX events pushed to
the document handler.  Tag/attribute name macros (`TAG_*`, `ATTR_*`,
`NS_*`, `ALGO_*`) live in `xsecctl.hxx`, which is not part of the
sources; their values are modelled from the spec (sections 4.12-4.13)
and the XML-DSig standard, and only their identity matters for the
claims.  `comphelper::OFOPXMLHelper::ReadRelationsInfoSequence`, which
parses the referenced relationships part, is external; it enters as the
parameter `readRels`, mapping the part name to its `StringPair`
sequences. -/

/-- A SAX event pushed to the `XDocumentHandler`. -/
inductive SaxEvent
  | startElement (name : String) (attrs : List (String × String))
  | endElement (name : String)
  | characters (text : String)
deriving DecidableEq, Repr

/-- Does the event start an element of the given name? -/
def isStartOf (name : String) : SaxEvent → Bool
  | .startElement n _ => n == name
  | _ => false

/-- Modelled from the spec: the `xd` (XAdES) namespace URI
(`NS_XD` of xsecctl.hxx, not under src/). -/
def NS_XD : String := "http://uri.etsi.org/01903/v1.3.2#"

/-- Modelled from the spec: the `mdssi` namespace URI (`NS_MDSSI`). -/
def NS_MDSSI : String :=
  "http://schemas.openxmlformats.org/package/2006/digital-signature"

/-- Modelled from the spec: the C14N algorithm URI (`ALGO_C14N`). -/
def ALGO_C14N : String := "http://www.w3.org/TR/2001/REC-xml-c14n-20010315"

/-- Modelled from the spec: the RSA-SHA256 signature algorithm URI
(`ALGO_RSASHA256`). -/
def ALGO_RSASHA256 : String := "http://www.w3.org/2001/04/xmldsig-more#rsa-sha256"

/-- Modelled from the spec: the SHA-256 digest algorithm URI
(`ALGO_XMLDSIGSHA256`). -/
def ALGO_XMLDSIGSHA256 : String := "http://www.w3.org/2001/04/xmlenc#sha256"

/-- Modelled from the spec: the relationship transform algorithm URI
(`ALGO_RELATIONSHIP`). -/
def ALGO_RELATIONSHIP : String :=
  "http://schemas.openxmlformats.org/package/2006/RelationshipTransform"

/-- `lcl_isOOXMLBlacklist` (xsecctl.cxx:987-1002): stream names never
referenced at all (prefix match). -/
def lcl_isOOXMLBlacklist (rStreamName : String) : Bool :=
  ["/%5BContent_Types%5D.xml", "/docProps/app.xml", "/docProps/core.xml",
   "/_xmlsignatures"].any (fun b => rStreamName.startsWith b)

/-- `lcl_isOOXMLRelationBlacklist` (xsecctl.cxx:1005-1017): relation
types intentionally not signed (exact match). -/
def lcl_isOOXMLRelationBlacklist (rRelationName : String) : Bool :=
  ["http://schemas.openxmlformats.org/officeDocument/2006/relationships/extended-properties",
   "http://schemas.openxmlformats.org/package/2006/relationships/metadata/core-properties",
   "http://schemas.openxmlformats.org/package/2006/relationships/digital-signature/origin"
  ].contains rRelationName

/-- The `Id`/`Type` extraction of the relations loop
(xsecctl.cxx:1138-1146): scan the `StringPair`s, the last `"Id"` pair
and the last `"Type"` pair win, both starting empty. -/
def extractIdType (rPairs : List (String × String)) : String × String :=
  rPairs.foldl (fun acc rPair =>
    if rPair.1 = "Id" then (rPair.2, acc.2)
    else if rPair.1 = "Type" then (acc.1, rPair.2) else acc) ("", "")

/-- The `RelationshipReference` emission loop (xsecctl.cxx:1136-1158):
each non-blacklisted relation becomes an
`<mdssi:RelationshipReference SourceId="…"/>` child of the Relationship
transform; blacklisted relation types are skipped (`continue`). -/
def relationshipReferenceEvents : List (List (String × String)) → List SaxEvent
  | [] => []
  | rPairs :: rels =>
    let it := extractIdType rPairs
    if lcl_isOOXMLRelationBlacklist it.2 then relationshipReferenceEvents rels
    else
      SaxEvent.startElement "mdssi:RelationshipReference"
          [("xmlns:mdssi", NS_MDSSI), ("SourceId", it.1)] ::
        SaxEvent.endElement "mdssi:RelationshipReference" ::
        relationshipReferenceEvents rels

/-- Reference kinds (`SignatureReferenceType` of sigstruct.hxx; only
"same document or not" is discriminated by the serializer). -/
inductive SignatureReferenceType
  | sameDocument
  | binaryStream
  | xmlStream
deriving DecidableEq, Repr

/-- One `SignatureReferenceInformation`. -/
structure SignatureReferenceInformation where
  nType : SignatureReferenceType
  ouURI : String
  ouDigestValue : String
deriving DecidableEq, Repr

/-- The `SignatureInformation` fields read by `exportOOXMLSignature`.
`stDateTimeISO` models `utl::toISO8601(stDateTime)` (an external
formatter) as the pre-rendered ISO 8601 string. -/
structure SignatureInformation where
  ouSignatureValue : String
  ouX509Certificate : String
  ouCertDigest : String
  ouX509IssuerName : String
  ouX509SerialNumber : String
  ouDescription : String
  ouDateTime : String
  stDateTimeISO : String
  vSignatureReferenceInfors : List SignatureReferenceInformation
deriving DecidableEq, Repr

/-- The signature-time string (xsecctl.cxx:1202-1215): prefer the
originally read string `ouDateTime`; otherwise take the ISO 8601
rendering, and when it carries a `,nnn` sub-second fraction drop it and
append `Z`. -/
def ooxmlTimeValue (info : SignatureInformation) : String :=
  if info.ouDateTime ≠ "" then info.ouDateTime
  else
    match info.stDateTimeISO.splitOn "," with
    | [] => info.stDateTimeISO
    | [s] => s
    | s :: _ :: _ => s ++ "Z"

/-- The relationships-part name opened for a reference URI
(xsecctl.cxx:1118-1125): drop a leading `/`, drop the `?...` query. -/
def relPartName (uri : String) : String :=
  let u := if uri.startsWith "/" then uri.drop 1 else uri
  match u.splitOn "?" with
  | [] => u
  | s :: _ => s

/-- One `<Reference>` of `<SignedInfo>` (xsecctl.cxx:1046-1080): only
same-document references appear there; `idSignedProperties` gets the
XAdES type attribute and a C14N transform. -/
def signedInfoRefEvents (r : SignatureReferenceInformation) : List SaxEvent :=
  match r.nType with
  | .sameDocument =>
    [SaxEvent.startElement "Reference"
        [("Type", if r.ouURI ≠ "idSignedProperties"
                  then "http://www.w3.org/2000/09/xmldsig#Object"
                  else "http://uri.etsi.org/01903#SignedProperties"),
         ("URI", "#" ++ r.ouURI)]] ++
    (if r.ouURI = "idSignedProperties" then
      [SaxEvent.startElement "Transforms" [],
       SaxEvent.startElement "Transform" [("Algorithm", ALGO_C14N)],
       SaxEvent.endElement "Transform",
       SaxEvent.endElement "Transforms"]
     else []) ++
    [SaxEvent.startElement "DigestMethod" [("Algorithm", ALGO_XMLDSIGSHA256)],
     SaxEvent.endElement "DigestMethod",
     SaxEvent.startElement "DigestValue" [],
     SaxEvent.characters r.ouDigestValue,
     SaxEvent.endElement "DigestValue",
     SaxEvent.endElement "Reference"]
  | _ => []

/-- One `<Reference>` of the `<Manifest>` (xsecctl.cxx:1102-1181):
non-same-document references only; stream-blacklisted URIs are skipped
entirely, and URIs ending in the relationships content type get a
Relationship transform (with the `RelationshipReference` children read
from the part) followed by a C14N transform. -/
def manifestRefEvents (readRels : String → List (List (String × String)))
    (r : SignatureReferenceInformation) : List SaxEvent :=
  match r.nType with
  | .sameDocument => []
  | _ =>
    if lcl_isOOXMLBlacklist r.ouURI then []
    else
      [SaxEvent.startElement "Reference" [("URI", r.ouURI)]] ++
      (if r.ouURI.endsWith
          "?ContentType=application/vnd.openxmlformats-package.relationships+xml" then
        [SaxEvent.startElement "Transforms" [],
         SaxEvent.startElement "Transform" [("Algorithm", ALGO_RELATIONSHIP)]] ++
        relationshipReferenceEvents (readRels (relPartName r.ouURI)) ++
        [SaxEvent.endElement "Transform",
         SaxEvent.startElement "Transform" [("Algorithm", ALGO_C14N)],
         SaxEvent.endElement "Transform",
         SaxEvent.endElement "Transforms"]
       else []) ++
      [SaxEvent.startElement "DigestMethod" [("Algorithm", ALGO_XMLDSIGSHA256)],
       SaxEvent.endElement "DigestMethod",
       SaxEvent.startElement "DigestValue" [],
       SaxEvent.characters r.ouDigestValue,
       SaxEvent.endElement "DigestValue",
       SaxEvent.endElement "Reference"]

/-- The `xd:SignedProperties` subtree (xsecctl.cxx:1302-1345), emitted
only when `LO_TESTNAME` is not set. -/
def signedPropertiesEvents (info : SignatureInformation) : List SaxEvent :=
  [SaxEvent.startElement "xd:SignedProperties" [("Id", "idSignedProperties")],
   SaxEvent.startElement "xd:SignedSignatureProperties" [],
   SaxEvent.startElement "xd:SigningTime" [],
   SaxEvent.characters (ooxmlTimeValue info),
   SaxEvent.endElement "xd:SigningTime",
   SaxEvent.startElement "xd:SigningCertificate" [],
   SaxEvent.startElement "xd:Cert" [],
   SaxEvent.startElement "xd:CertDigest" [],
   SaxEvent.startElement "DigestMethod" [("Algorithm", ALGO_XMLDSIGSHA256)],
   SaxEvent.endElement "DigestMethod",
   SaxEvent.startElement "DigestValue" [],
   SaxEvent.characters info.ouCertDigest,
   SaxEvent.endElement "DigestValue",
   SaxEvent.endElement "xd:CertDigest",
   SaxEvent.startElement "xd:IssuerSerial" [],
   SaxEvent.startElement "X509IssuerName" [],
   SaxEvent.characters info.ouX509IssuerName,
   SaxEvent.endElement "X509IssuerName",
   SaxEvent.startElement "X509SerialNumber" [],
   SaxEvent.characters info.ouX509SerialNumber,
   SaxEvent.endElement "X509SerialNumber",
   SaxEvent.endElement "xd:IssuerSerial",
   SaxEvent.endElement "xd:Cert",
   SaxEvent.endElement "xd:SigningCertificate",
   SaxEvent.startElement "xd:SignaturePolicyIdentifier" [],
   SaxEvent.startElement "xd:SignaturePolicyImplied" [],
   SaxEvent.endElement "xd:SignaturePolicyImplied",
   SaxEvent.endElement "xd:SignaturePolicyIdentifier",
   SaxEvent.endElement "xd:SignedSignatureProperties",
   SaxEvent.endElement "xd:SignedProperties"]

/-- `exportOOXMLSignature`, events up to the first `<Reference>`
(xsecctl.cxx:1023-1043). -/
def ooxmlHeaderEvents : List SaxEvent :=
  [SaxEvent.startElement "Signature"
      [("xmlns", "http://www.w3.org/2000/09/xmldsig#"), ("Id", "idPackageSignature")],
   SaxEvent.startElement "SignedInfo" [],
   SaxEvent.startElement "CanonicalizationMethod" [("Algorithm", ALGO_C14N)],
   SaxEvent.endElement "CanonicalizationMethod",
   SaxEvent.startElement "SignatureMethod" [("Algorithm", ALGO_RSASHA256)],
   SaxEvent.endElement "SignatureMethod"]

/-- `exportOOXMLSignature`, events between `</SignedInfo>` and
`<Manifest>` (xsecctl.cxx:1082-1101). -/
def ooxmlMidEvents (info : SignatureInformation) : List SaxEvent :=
  [SaxEvent.endElement "SignedInfo",
   SaxEvent.startElement "SignatureValue" [],
   SaxEvent.characters info.ouSignatureValue,
   SaxEvent.endElement "SignatureValue",
   SaxEvent.startElement "KeyInfo" [],
   SaxEvent.startElement "X509Data" [],
   SaxEvent.startElement "X509Certificate" [],
   SaxEvent.characters info.ouX509Certificate,
   SaxEvent.endElement "X509Certificate",
   SaxEvent.endElement "X509Data",
   SaxEvent.endElement "KeyInfo",
   SaxEvent.startElement "Object" [("Id", "idPackageObject")],
   SaxEvent.startElement "Manifest" []]

/-- `exportOOXMLSignature`, events from `</Manifest>` through the
opening of `<xd:QualifyingProperties>` (xsecctl.cxx:1182-1296): the
`idSignatureTime` property, the `idOfficeObject` `SignatureInfoV1` block
with its fixed placeholder values, and the third `<Object>`. -/
def ooxmlPropsEvents (info : SignatureInformation) : List SaxEvent :=
  [SaxEvent.endElement "Manifest",
   SaxEvent.startElement "SignatureProperties" [],
   SaxEvent.startElement "SignatureProperty"
      [("Id", "idSignatureTime"), ("Target", "#idPackageSignature")],
   SaxEvent.startElement "mdssi:SignatureTime" [("xmlns:mdssi", NS_MDSSI)],
   SaxEvent.startElement "mdssi:Format" [],
   SaxEvent.characters "YYYY-MM-DDThh:mm:ssTZD",
   SaxEvent.endElement "mdssi:Format",
   SaxEvent.startElement "mdssi:Value" [],
   SaxEvent.characters (ooxmlTimeValue info),
   SaxEvent.endElement "mdssi:Value",
   SaxEvent.endElement "mdssi:SignatureTime",
   SaxEvent.endElement "SignatureProperty",
   SaxEvent.endElement "SignatureProperties",
   SaxEvent.endElement "Object",
   SaxEvent.startElement "Object" [("Id", "idOfficeObject")],
   SaxEvent.startElement "SignatureProperties" [],
   SaxEvent.startElement "SignatureProperty"
      [("Id", "idOfficeV1Details"), ("Target", "#idPackageSignature")],
   SaxEvent.startElement "SignatureInfoV1"
      [("xmlns", "http://schemas.microsoft.com/office/2006/digsig")],
   SaxEvent.startElement "SetupId" [],
   SaxEvent.endElement "SetupId",
   SaxEvent.startElement "SignatureText" [],
   SaxEvent.endElement "SignatureText",
   SaxEvent.startElement "SignatureImage" [],
   SaxEvent.endElement "SignatureImage",
   SaxEvent.startElement "SignatureComments" [],
   SaxEvent.characters info.ouDescription,
   SaxEvent.endElement "SignatureComments",
   SaxEvent.startElement "WindowsVersion" [],
   SaxEvent.characters "6.1",
   SaxEvent.endElement "WindowsVersion",
   SaxEvent.startElement "OfficeVersion" [],
   SaxEvent.characters "16.0",
   SaxEvent.endElement "OfficeVersion",
   SaxEvent.startElement "ApplicationVersion" [],
   SaxEvent.characters "16.0",
   SaxEvent.endElement "ApplicationVersion",
   SaxEvent.startElement "Monitors" [],
   SaxEvent.characters "1",
   SaxEvent.endElement "Monitors",
   SaxEvent.startElement "HorizontalResolution" [],
   SaxEvent.characters "1280",
   SaxEvent.endElement "HorizontalResolution",
   SaxEvent.startElement "VerticalResolution" [],
   SaxEvent.characters "800",
   SaxEvent.endElement "VerticalResolution",
   SaxEvent.startElement "ColorDepth" [],
   SaxEvent.characters "32",
   SaxEvent.endElement "ColorDepth",
   SaxEvent.startElement "SignatureProviderId" [],
   SaxEvent.characters "\x7b00000000-0000-0000-0000-000000000000\x7d",
   SaxEvent.endElement "SignatureProviderId",
   SaxEvent.startElement "SignatureProviderUrl" [],
   SaxEvent.endElement "SignatureProviderUrl",
   SaxEvent.startElement "SignatureProviderDetails" [],
   SaxEvent.characters "9",
   SaxEvent.endElement "SignatureProviderDetails",
   SaxEvent.startElement "SignatureType" [],
   SaxEvent.characters "1",
   SaxEvent.endElement "SignatureType",
   SaxEvent.endElement "SignatureInfoV1",
   SaxEvent.endElement "SignatureProperty",
   SaxEvent.endElement "SignatureProperties",
   SaxEvent.endElement "Object",
   SaxEvent.startElement "Object" [],
   SaxEvent.startElement "xd:QualifyingProperties"
      [("xmlns:xd", NS_XD), ("Target", "#idPackageSignature")]]

/-- `exportOOXMLSignature`, closing events (xsecctl.cxx:1346-1349). -/
def ooxmlTailEvents : List SaxEvent :=
  [SaxEvent.endElement "xd:QualifyingProperties",
   SaxEvent.endElement "Object",
   SaxEvent.endElement "Signature"]

/-- `XSecController::exportOOXMLSignature` (xsecctl.cxx:1019-1350) as
the SAX event list it pushes.  `bTest` is `getenv("LO_TESTNAME")`;
`readRels` stands for `OFOPXMLHelper::ReadRelationsInfoSequence` over
the opened relationships stream.  The `xd:SignedProperties` subtree is
guarded by `!bTest` (xsecctl.cxx:1299-1300), while the
`xd:QualifyingProperties` element itself is emitted unconditionally. -/
def exportOOXMLSignature (bTest : Bool)
    (readRels : String → List (List (String × String)))
    (info : SignatureInformation) : List SaxEvent :=
  ooxmlHeaderEvents ++
  info.vSignatureReferenceInfors.flatMap signedInfoRefEvents ++
  ooxmlMidEvents info ++
  info.vSignatureReferenceInfors.flatMap (manifestRefEvents readRels) ++
  ooxmlPropsEvents info ++
  (if bTest then [] else signedPropertiesEvents info) ++
  ooxmlTailEvents

/-! `DocumentSignatureManager::isXML`
(documentsignaturemanager.cxx:55-110).  One manifest entry is the
property list of a file; `isXML` extracts its `FullPath`, `MediaType`
and whether a `Digest` property (meaning: encrypted) is present.
`DocumentSignatureHelper::equalsReferenceUriManifestPath` is external
and enters as the parameter `eqPath`. -/

/-- The per-entry property scan of `isXML`
(documentsignaturemanager.cxx:73-85): `(FullPath, MediaType,
encrypted)`. -/
def entryProps (entry : List (String × String)) : String × String × Bool :=
  entry.foldl (fun acc prop =>
    if prop.1 = "FullPath" then (prop.2, acc.2.1, acc.2.2)
    else if prop.1 = "MediaType" then (acc.1, prop.2, acc.2.2)
    else if prop.1 = "Digest" then (acc.1, acc.2.1, true)
    else acc) ("", "", false)

/-- `DocumentSignatureManager::isXML` (documentsignaturemanager.cxx:
55-110): with `LO_TESTNAME` set return true at once; else look the URI
up in the manifest (first match wins) and require MediaType `text/xml`
and not encrypted; entries absent from the manifest fall back to a
case-insensitive `.xml` extension test. -/
def isXML (bTest : Bool) (eqPath : String → String → Bool)
    (manifest : List (List (String × String))) (rURI : String) : Bool :=
  if bTest then true
  else
    match manifest.find? (fun entry => eqPath rURI (entryProps entry).1) with
    | some entry => (entryProps entry).2.1 == "text/xml" && !(entryProps entry).2.2
    | none =>
      match rURI.splitOn "." with
      | [] => false
      | [_] => false
      | parts => (parts.getLastD "").toLower == "xml"

/-! ## Core B, SAX chain controller (`XSecController::chainOn`,
`chainOff`, `checkChainingStatus` and the status-change listener
callbacks, xsecctl.cxx:210-421 and 1392-1405).

The controller state is the relevant member variables; the calls made on
the collaborating components (SAXEventKeeper, previous/next chain nodes,
ElementStackKeeper) are recorded as an action list.
`createXSecComponent` (xsecctl.cxx:119-208) talks to the component
factory, so its outcome enters as the parameter `createOutcome` (the
status it leaves in `m_nStatusOfSecurityComponents`); it is irrelevant
once the components are initialized. -/

/-- `m_nStatusOfSecurityComponents` values (`UNINITIALIZED`,
`INITIALIZED`, `FAILTOINITIALIZED`). -/
inductive SecCompStatus
  | uninitialized
  | initialized
  | failedToInit
deriving DecidableEq, Repr

/-- The chain-relevant members of `XSecController`. -/
structure ChainState where
  connected : Bool
  collecting : Bool
  blocking : Bool
  sticky : Bool
  status : SecCompStatus
  prevPresent : Bool
  eskPresent : Bool
deriving DecidableEq, Repr

/-- Calls made on the collaborating components, in order. -/
inductive ChainAction
  | sekSetNextNull
  | connectPrevToSEK
  | eskRetrieve (bRetrievingLastEvent : Bool)
  | eskStop
  | sekSetNextChain
  | connectPrevToNext
  | eskStart
deriving DecidableEq, Repr

/-- `XSecController::chainOn` (xsecctl.cxx:210-323): only when not
sticky and not already connected; create the security components if
uninitialized; if initialized, disconnect the SAXEventKeeper's output,
reconnect the previous node to it, replay and stop the
ElementStackKeeper (when present), connect the output to the next node,
and record the connection. -/
def chainOn (createOutcome : SecCompStatus) (bRetrievingLastEvent : Bool)
    (s : ChainState) : ChainState × List ChainAction :=
  if !s.sticky && !s.connected then
    let s1 := if s.status = .uninitialized then { s with status := createOutcome } else s
    if s1.status = .initialized then
      ({ s1 with connected := true },
       [ChainAction.sekSetNextNull] ++
       (if s1.prevPresent then [ChainAction.connectPrevToSEK] else []) ++
       (if s1.eskPresent then
         [ChainAction.eskRetrieve bRetrievingLastEvent, ChainAction.eskStop] else []) ++
       [ChainAction.sekSetNextChain])
    else (s1, [])
  else (s, [])

/-- `XSecController::chainOff` (xsecctl.cxx:325-384): only when not
sticky and connected; disconnect the SAXEventKeeper, reconnect the
previous node to the next node, restart the ElementStackKeeper (when
present), and record the disconnection. -/
def chainOff (s : ChainState) : ChainState × List ChainAction :=
  if !s.sticky then
    if s.connected then
      ({ s with connected := false },
       [ChainAction.sekSetNextNull] ++
       (if s.prevPresent then [ChainAction.connectPrevToNext] else []) ++
       (if s.eskPresent then [ChainAction.eskStart] else []))
    else (s, [])
  else (s, [])

/-- `XSecController::checkChainingStatus` (xsecctl.cxx:386-421): chain
on (retrieving the last event) while collecting or blocking, else chain
off. -/
def checkChainingStatus (createOutcome : SecCompStatus) (s : ChainState) :
    ChainState × List ChainAction :=
  if s.collecting || s.blocking then chainOn createOutcome true s
  else chainOff s

/-- `XSecController::blockingStatusChanged` (xsecctl.cxx:1392-1397). -/
def blockingStatusChanged (createOutcome : SecCompStatus) (s : ChainState)
    (isBlocking : Bool) : ChainState × List ChainAction :=
  checkChainingStatus createOutcome { s with blocking := isBlocking }

/-- `XSecController::collectionStatusChanged` (xsecctl.cxx:1399-1405). -/
def collectionStatusChanged (createOutcome : SecCompStatus) (s : ChainState)
    (isInsideCollectedElement : Bool) : ChainState × List ChainAction :=
  checkChainingStatus createOutcome { s with collecting := isInsideCollectedElement }

/-! ## Core B, signature manager `add`
(`DocumentSignatureManager::add`, documentsignaturemanager.cxx:190-291).

`XMLSignatureHelper` (`maSignatureHelper`) is implemented outside the
sources; its state is modelled as the mission flag, the next security id
and the per-signature records that the `add` path sets on it
(`SetX509Certificate`, `AddForSigning`, `SetDateTime`,
`SetDescription`).  The temporary stream/storage created by
`ImplOpenSignatureStream(WRITE|TRUNCATE, true)` is modelled by the data
written into it: the previously read signatures
(`maCurrentSignatureInformations`, exported first) followed by the newly
created one. -/

/-- The certificate facts `add` reads off `XCertificate`.
`sha256ThumbprintB64` is `some` exactly when the
`xmlsecurity::Certificate` downcast succeeds. -/
structure SigCert where
  serialNumber : String
  issuerName : String
  encodedB64 : String
  sha256ThumbprintB64 : Option String
deriving DecidableEq, Repr

/-- The per-signature data `add` pushes into the signature helper. -/
structure HelperRecord where
  securityId : ℕ
  issuerName : String
  serial : String
  certB64 : String
  certDigest : String
  refs : List (String × Bool)
  description : String
deriving DecidableEq, Repr

/-- Modelled from the spec: the state of `XMLSignatureHelper`
(`maSignatureHelper`), whose implementation is not under src/: the
mission flag, the monotone security-id counter, and the records built
for signing. -/
structure SignatureHelperState where
  missionActive : Bool
  nextSecurityId : ℕ
  records : List HelperRecord
deriving DecidableEq, Repr

/-- The contents written into the freshly created temporary
stream / sub-storage: the previously read signatures followed by the
new one. -/
structure TempStreamData where
  oldSignatures : List SignatureInformation
  newRecord : HelperRecord
deriving DecidableEq, Repr

/-- The `DocumentSignatureManager` members `add` touches or reads. -/
structure ManagerState where
  currentSignatureInformations : List SignatureInformation
  helper : SignatureHelperState
  tempSignatureStream : Option TempStreamData
  tempSignatureStorage : Option TempStreamData
  manifest : List (List (String × String))
  storeIsOOXML : Bool
deriving DecidableEq, Repr

/-- `DocumentSignatureManager::add`
(documentsignaturemanager.cxx:190-291): fail (returning `false`, with no
state change) on a null certificate or an empty serial-number string;
otherwise start the mission, take a fresh security id, record
certificate data, description and one reference per element (binary
mode iff `!isXML`), write the old signatures plus the new one into a
freshly created temporary stream (and, for OOXML stores, temporary
sub-storage), and end the mission.  `maCurrentSignatureInformations` is
only read. -/
def add (m : ManagerState) (xCert : Option SigCert) (rDescription : String)
    (bTest : Bool) (eqPath : String → String → Bool)
    (aElements : List String) : ManagerState × Bool × Option ℕ :=
  match xCert with
  | none => (m, false, none)
  | some cert =>
    if cert.serialNumber = "" then (m, false, none)
    else
      let nSecurityId := m.helper.nextSecurityId
      let aCertDigest := cert.sha256ThumbprintB64.getD ""
      let rec0 : HelperRecord :=
        { securityId := nSecurityId
          issuerName := cert.issuerName
          serial := cert.serialNumber
          certB64 := cert.encodedB64
          certDigest := aCertDigest
          refs := aElements.map (fun el => (el, !(isXML bTest eqPath m.manifest el)))
          description := rDescription }
      let newTemp : TempStreamData :=
        { oldSignatures := m.currentSignatureInformations, newRecord := rec0 }
      ({ m with
          helper := { missionActive := false
                      nextSecurityId := nSecurityId + 1
                      records := m.helper.records ++ [rec0] }
          tempSignatureStream := some newTemp
          tempSignatureStorage :=
            if m.storeIsOOXML then some newTemp else m.tempSignatureStorage },
       true, some nSecurityId)

/-- Claim C1, counterexample: the additive-TES initializer run on the
preprocessed range `Y = [1,3,2,4]` with period `P = 2` (evenly spaced X,
no duplicates) seeds `Base[0] = Y[0]/PerIdx[0] = 1/(-3/4) = -4/3`, which
differs from `Y[0] = 1`; so `prefillBaseData` does not set
`Base[0] = Y[0]` in additive mode. -/
theorem initData_additive_counterexample :
    initData false true [1, 3, 2, 4] 2 =
      .ok { base0 := -4/3, trend0 := 1/2, perIdx := [-3/4, 3/4], forecast0 := 1 } ∧
    ((-4 : ℚ)/3 ≠ ([1, 3, 2, 4] : List ℚ).getD 0 0) := by
  constructor
  · norm_num [initData, prefillTrendData, prefillPerIdx, periodAverages,
      prefillBaseData, Finset.sum_range_succ, List.range_succ]
  · norm_num

/-- Claim C1 (amended): whenever the initializer succeeds, seasonal mode
(additive exactly as multiplicative) seeds `Base[0] = Y[0] / PerIdx[0]`,
and only DES seeds `Base[0] = Y[0]` directly. -/
theorem initData_base0 (bAdditive : Bool) (Y : List ℚ) (P : ℕ) (st : InitState) :
    (initData false bAdditive Y P = .ok st →
      st.base0 = Y.getD 0 0 / st.perIdx.getD 0 0) ∧
    (initData true bAdditive Y P = .ok st → st.base0 = Y.getD 0 0) := by
  constructor
  · intro h
    unfold initData at h
    cases h1 : prefillTrendData false Y P with
    | error e => rw [h1] at h; exact absurd h (by simp)
    | ok t =>
      rw [h1] at h
      simp only [Bool.false_eq_true, if_false] at h
      cases h2 : prefillPerIdx bAdditive Y P t with
      | error e => rw [h2] at h; exact absurd h (by simp)
      | ok perIdx =>
        rw [h2] at h
        simp only [Except.ok.injEq] at h
        rw [← h]
        simp [prefillBaseData]
  · intro h
    unfold initData at h
    cases h1 : prefillTrendData true Y P with
    | error e => rw [h1] at h; exact absurd h (by simp)
    | ok t =>
      rw [h1] at h
      simp only [if_true] at h
      simp only [Except.ok.injEq] at h
      rw [← h]
      simp [prefillBaseData]

/-- Claim C3, counterexample: for `Y = [0,12,12,27,27,27]` (`N = 6`) the
two candidate periods `2` and `3` have the same non-zero minimal mean
error `6`, yet `CalcPeriodLen` returns the larger period `3` (the strict
comparison `fMeanError < fBestME` retains the earlier, larger candidate),
not the smaller period `2` the claim requires. -/
theorem calcPeriodLen_tie_counterexample :
    calcPeriodLen [0, 12, 12, 27, 27, 27] = 3 ∧
    periodMeanError [0, 12, 12, 27, 27, 27] 2 =
      periodMeanError [0, 12, 12, 27, 27, 27] 3 ∧
    periodMeanError [0, 12, 12, 27, 27, 27] 3 ≠ 0 ∧
    (3 : ℕ) ≠ 2 := by
  refine ⟨?_, ?_, ?_, by norm_num⟩
  · norm_num [calcPeriodLen, calcPLGo, periodMeanError, DBL_MAX,
      Finset.sum_Ico_eq_sum_range, Finset.sum_range_succ]
  · norm_num [periodMeanError, Finset.sum_Ico_eq_sum_range, Finset.sum_range_succ]
  · norm_num [periodMeanError, Finset.sum_Ico_eq_sum_range, Finset.sum_range_succ]

theorem periodMeanError_nonneg (Y : List ℚ) (P : ℕ) : 0 ≤ periodMeanError Y P := by
  unfold periodMeanError
  exact div_nonneg (Finset.sum_nonneg fun i _ => abs_nonneg _) (Nat.cast_nonneg _)

/-- Invariant of the candidate loop of `CalcPeriodLen`: `best` is a
candidate already processed (hence `k ≤ best`) whose mean error is
`bestME`.  The final value is then (1) `best` or a candidate in `[2, k]`,
(2) of minimal mean error among `best` and `[2, k]`, (3) when that
minimum is non-zero, the largest candidate attaining it (strict
improvement keeps the earlier, larger candidate), and (4) when the
minimum is zero, the smallest zero-error candidate (`fMeanError == 0.0`
always overwrites). -/
theorem calcPLGo_spec (Y : List ℚ) (k : ℕ) :
    ∀ (best : ℕ) (bestME : ℚ), periodMeanError Y best = bestME → k ≤ best →
      (calcPLGo Y k best bestME = best ∨
        (2 ≤ calcPLGo Y k best bestME ∧ calcPLGo Y k best bestME ≤ k)) ∧
      periodMeanError Y (calcPLGo Y k best bestME) ≤ bestME ∧
      (∀ P, 2 ≤ P → P ≤ k →
        periodMeanError Y (calcPLGo Y k best bestME) ≤ periodMeanError Y P) ∧
      (periodMeanError Y (calcPLGo Y k best bestME) ≠ 0 →
        (periodMeanError Y (calcPLGo Y k best bestME) = bestME →
          calcPLGo Y k best bestME = best) ∧
        (∀ P, 2 ≤ P → P ≤ k →
          periodMeanError Y P = periodMeanError Y (calcPLGo Y k best bestME) →
          P ≤ calcPLGo Y k best bestME)) ∧
      (periodMeanError Y (calcPLGo Y k best bestME) = 0 →
        ∀ P, 2 ≤ P → P ≤ k → periodMeanError Y P = 0 →
          calcPLGo Y k best bestME ≤ P) := by
  induction k using Nat.strong_induction_on with
  | _ k ih =>
    match k with
    | 0 =>
      intro best bestME hlink _
      refine ⟨Or.inl rfl, le_of_eq hlink, ?_, ?_, ?_⟩
      · intro P h2 h0; omega
      · exact fun _ => ⟨fun _ => rfl, fun P h2 h0 _ => by omega⟩
      · intro _ P h2 h0; omega
    | 1 =>
      intro best bestME hlink _
      refine ⟨Or.inl rfl, le_of_eq hlink, ?_, ?_, ?_⟩
      · intro P h2 h1; omega
      · exact fun _ => ⟨fun _ => rfl, fun P h2 h1 _ => by omega⟩
      · intro _ P h2 h1; omega
    | p + 2 =>
      intro best bestME hlink hk
      have hstep : calcPLGo Y (p + 2) best bestME =
          if periodMeanError Y (p + 2) < bestME ∨ periodMeanError Y (p + 2) = 0
          then calcPLGo Y (p + 1) (p + 2) (periodMeanError Y (p + 2))
          else calcPLGo Y (p + 1) best bestME := rfl
      by_cases hc : periodMeanError Y (p + 2) < bestME ∨ periodMeanError Y (p + 2) = 0
      · rw [hstep, if_pos hc]
        obtain ⟨IH1, IH2, IH3, IH4, IH5⟩ :=
          ih (p + 1) (by omega) (p + 2) (periodMeanError Y (p + 2)) rfl (by omega)
        refine ⟨?_, ?_, ?_, ?_, ?_⟩
        · right
          rcases IH1 with h | ⟨h1, h2⟩
          · omega
          · omega
        · rcases hc with hlt | h0
          · exact le_trans IH2 (le_of_lt hlt)
          · exact le_trans (IH2.trans_eq h0) (hlink ▸ periodMeanError_nonneg Y best)
        · intro P h2P hPk
          rcases Nat.lt_or_ge P (p + 2) with hP | hP
          · exact IH3 P h2P (by omega)
          · have hP2 : P = p + 2 := by omega
            rw [hP2]; exact IH2
        · intro hne
          obtain ⟨IH4a, IH4b⟩ := IH4 hne
          constructor
          · intro heq
            rcases hc with hlt | h0
            · exact absurd (heq ▸ IH2) (not_le_of_lt (heq ▸ hlt))
            · exfalso
              exact hne (le_antisymm (IH2.trans_eq h0) (periodMeanError_nonneg Y _))
          · intro P h2P hPk heqP
            rcases Nat.lt_or_ge P (p + 2) with hP | hP
            · exact IH4b P h2P (by omega) heqP
            · have hP2 : P = p + 2 := by omega
              have hre := IH4a (by rw [← heqP, hP2])
              omega
        · intro h0 P h2P hPk hP0
          rcases Nat.lt_or_ge P (p + 2) with hP | hP
          · exact IH5 h0 P h2P (by omega) hP0
          · rcases IH1 with h | ⟨_, h2⟩
            · omega
            · omega
      · rw [hstep, if_neg hc]
        push_neg at hc
        obtain ⟨hge, hne0⟩ := hc
        obtain ⟨IH1, IH2, IH3, IH4, IH5⟩ :=
          ih (p + 1) (by omega) best bestME hlink (by omega)
        refine ⟨?_, IH2, ?_, ?_, ?_⟩
        · rcases IH1 with h | ⟨h1, h2⟩
          · exact Or.inl h
          · exact Or.inr ⟨h1, by omega⟩
        · intro P h2P hPk
          rcases Nat.lt_or_ge P (p + 2) with hP | hP
          · exact IH3 P h2P (by omega)
          · have hP2 : P = p + 2 := by omega
            rw [hP2]; exact le_trans IH2 hge
        · intro hne
          obtain ⟨IH4a, IH4b⟩ := IH4 hne
          refine ⟨IH4a, ?_⟩
          intro P h2P hPk heqP
          rcases Nat.lt_or_ge P (p + 2) with hP | hP
          · exact IH4b P h2P (by omega) heqP
          · have hP2 : P = p + 2 := by omega
            subst hP2
            have hbm : periodMeanError Y (calcPLGo Y (p + 1) best bestME) = bestME :=
              le_antisymm IH2 (by rw [← heqP]; exact hge)
            have hre := IH4a hbm
            omega
        · intro h0 P h2P hPk hP0
          rcases Nat.lt_or_ge P (p + 2) with hP | hP
          · exact IH5 h0 P h2P (by omega) hP0
          · have hP2 : P = p + 2 := by omega
            exact absurd (hP2 ▸ hP0) hne0

/-- Claim C3 (amended): for `N ≥ 4` and all candidate mean errors below
`DBL_MAX`, `CalcPeriodLen` returns a period in `[2, ⌊N/2⌋]` of minimal
mean error; when the minimal mean error is non-zero, equal minimal
candidates are resolved in favor of the *larger* period (the loop keeps
the first, i.e. largest, strict improvement), and a candidate with mean
error exactly zero always overwrites the running best, so with zero
minimal error the smallest zero-error period is returned. -/
theorem calcPeriodLen_amended (Y : List ℚ) (h4 : 4 ≤ Y.length)
    (hfin : ∀ P, 2 ≤ P → P ≤ Y.length / 2 → periodMeanError Y P < DBL_MAX) :
    (2 ≤ calcPeriodLen Y ∧ calcPeriodLen Y ≤ Y.length / 2) ∧
    (∀ P, 2 ≤ P → P ≤ Y.length / 2 →
      periodMeanError Y (calcPeriodLen Y) ≤ periodMeanError Y P) ∧
    (periodMeanError Y (calcPeriodLen Y) ≠ 0 →
      ∀ P, 2 ≤ P → P ≤ Y.length / 2 →
        periodMeanError Y P = periodMeanError Y (calcPeriodLen Y) →
        P ≤ calcPeriodLen Y) ∧
    (periodMeanError Y (calcPeriodLen Y) = 0 →
      ∀ P, 2 ≤ P → P ≤ Y.length / 2 →
        periodMeanError Y P = 0 → calcPeriodLen Y ≤ P) := by
  obtain ⟨p, hp⟩ : ∃ p, Y.length / 2 = p + 2 := ⟨Y.length / 2 - 2, by omega⟩
  have hF : 2 ≤ Y.length / 2 := by omega
  have he : periodMeanError Y (p + 2) < DBL_MAX := hfin (p + 2) (by omega) (by omega)
  have hstep : calcPeriodLen Y = calcPLGo Y (p + 1) (p + 2) (periodMeanError Y (p + 2)) := by
    unfold calcPeriodLen
    rw [hp]
    show (if periodMeanError Y (p + 2) < DBL_MAX ∨ periodMeanError Y (p + 2) = 0
          then calcPLGo Y (p + 1) (p + 2) (periodMeanError Y (p + 2))
          else calcPLGo Y (p + 1) Y.length DBL_MAX) = _
    rw [if_pos (Or.inl he)]
  obtain ⟨S1, S2, S3, S4, S5⟩ :=
    calcPLGo_spec Y (p + 1) (p + 2) (periodMeanError Y (p + 2)) rfl (by omega)
  rw [← hstep] at S1 S2 S3 S4 S5
  refine ⟨?_, ?_, ?_, ?_⟩
  · rcases S1 with h | ⟨h1, h2⟩
    · omega
    · omega
  · intro P h2P hPF
    rcases Nat.lt_or_ge P (p + 2) with hP | hP
    · exact S3 P h2P (by omega)
    · have hP2 : P = p + 2 := by omega
      rw [hP2]; exact S2
  · intro hne P h2P hPF heqP
    obtain ⟨S4a, S4b⟩ := S4 hne
    rcases Nat.lt_or_ge P (p + 2) with hP | hP
    · exact S4b P h2P (by omega) heqP
    · have hP2 : P = p + 2 := by omega
      have := S4a (by rw [← heqP, hP2])
      omega
  · intro h0 P h2P hPF hP0
    rcases Nat.lt_or_ge P (p + 2) with hP | hP
    · exact S5 h0 P h2P (by omega) hP0
    · rcases S1 with h | ⟨_, h2⟩
      · omega
      · omega

/-- Witness for `calcPeriodLen_amended`: `Y = [0,1,0,1]` has `N = 4`, its
only candidate period is `2`, and the theorem applies. -/
theorem calcPeriodLen_amended_witness : 2 ≤ calcPeriodLen [0, 1, 0, 1] :=
  (calcPeriodLen_amended [0, 1, 0, 1] (by norm_num)
    (fun P h2 hP => by
      have hP2 : P = 2 := by simp at hP; omega
      subst hP2
      norm_num [periodMeanError, DBL_MAX, Finset.sum_Ico_eq_sum_range,
        Finset.sum_range_succ])).1.1

theorem gapInsertLoop_spec (step y : ℚ) (N0 : ℕ) :
    ∀ (f : ℕ) (x xHi : ℚ) (m : ℕ), (m : ℚ) / (N0 : ℚ) ≤ 3/10 →
      (((m + gapLen f x xHi step : ℕ) : ℚ) / (N0 : ℚ) > 3/10 →
        gapInsertLoop f x xHi step y m N0 = .error .noValue) ∧
      (((m + gapLen f x xHi step : ℕ) : ℚ) / (N0 : ℚ) ≤ 3/10 →
        gapInsertLoop f x xHi step y m N0 =
          .ok (specGapPoints f x xHi step y, m + gapLen f x xHi step)) := by
  intro f
  induction f with
  | zero =>
    intro x xHi m hm
    have hgl : gapLen 0 x xHi step = 0 := rfl
    rw [hgl]
    refine ⟨fun h => absurd (by simpa using h) (not_lt.mpr hm), fun _ => ?_⟩
    show Except.ok ([], m) = Except.ok (specGapPoints 0 x xHi step y, m + 0)
    rw [Nat.add_zero]
    rfl
  | succ f ihf =>
    intro x xHi m hm
    have hunf : gapInsertLoop (f + 1) x xHi step y m N0 =
        if x < xHi then
          if ((m + 1 : ℕ) : ℚ) / (N0 : ℚ) > 3/10 then .error .noValue
          else
            match gapInsertLoop f (x + step) xHi step y (m + 1) N0 with
            | .error e => .error e
            | .ok (rest, m') => .ok (⟨x, y⟩ :: rest, m')
        else .ok ([], m) := rfl
    by_cases hx : x < xHi
    · have hgl : gapLen (f + 1) x xHi step = gapLen f (x + step) xHi step + 1 := by
        show (if x < xHi then gapLen f (x + step) xHi step + 1 else 0) = _
        rw [if_pos hx]
      by_cases hchk : ((m + 1 : ℕ) : ℚ) / (N0 : ℚ) > 3/10
      · constructor
        · intro _
          rw [hunf, if_pos hx, if_pos hchk]
        · intro hle
          exfalso
          have hN0 : (0 : ℚ) < (N0 : ℚ) := by
            by_contra hN
            push_neg at hN
            have hz : (N0 : ℚ) = 0 := le_antisymm hN (Nat.cast_nonneg _)
            rw [hz, div_zero] at hchk
            exact absurd hchk (by norm_num)
          have hcast : ((m + 1 : ℕ) : ℚ) ≤ ((m + gapLen (f + 1) x xHi step : ℕ) : ℚ) := by
            have : m + 1 ≤ m + gapLen (f + 1) x xHi step := by rw [hgl]; omega
            exact_mod_cast this
          exact absurd (le_trans ((div_le_div_iff_of_pos_right hN0).mpr hcast) hle)
            (not_le.mpr hchk)
      · push_neg at hchk
        obtain ⟨IH1, IH2⟩ := ihf (x + step) xHi (m + 1) hchk
        have harith : m + 1 + gapLen f (x + step) xHi step =
            m + gapLen (f + 1) x xHi step := by rw [hgl]; omega
        have hsp : specGapPoints (f + 1) x xHi step y =
            DataPoint.mk x y :: specGapPoints f (x + step) xHi step y := by
          show (if x < xHi then DataPoint.mk x y ::
              specGapPoints f (x + step) xHi step y else []) = _
          rw [if_pos hx]
        constructor
        · intro h
          have herr := IH1 (by rw [harith]; exact h)
          rw [hunf, if_pos hx, if_neg (not_lt.mpr hchk), herr]
        · intro hle
          have hok := IH2 (by rw [harith]; exact hle)
          rw [hunf, if_pos hx, if_neg (not_lt.mpr hchk), hok, harith, hsp]
    · have hgl : gapLen (f + 1) x xHi step = 0 := by
        show (if x < xHi then gapLen f (x + step) xHi step + 1 else 0) = _
        rw [if_neg hx]
      have hsp : specGapPoints (f + 1) x xHi step y = [] := by
        show (if x < xHi then DataPoint.mk x y ::
            specGapPoints f (x + step) xHi step y else []) = _
        rw [if_neg hx]
      rw [hgl, hsp]
      constructor
      · intro h
        exact absurd (by simpa using h) (not_lt.mpr hm)
      · intro _
        rw [hunf, if_neg hx, Nat.add_zero]

theorem specGapPoints_mem (step y : ℚ) (hstep : 0 ≤ step) :
    ∀ (f : ℕ) (x xHi : ℚ), ∀ pt ∈ specGapPoints f x xHi step y,
      pt.Y = y ∧ x ≤ pt.X ∧ pt.X < xHi := by
  intro f
  induction f with
  | zero =>
    intro x xHi pt hpt
    exact absurd hpt (List.not_mem_nil pt)
  | succ f ihf =>
    intro x xHi pt hpt
    by_cases hx : x < xHi
    · have hsp : specGapPoints (f + 1) x xHi step y =
          DataPoint.mk x y :: specGapPoints f (x + step) xHi step y := by
        show (if x < xHi then DataPoint.mk x y ::
            specGapPoints f (x + step) xHi step y else []) = _
        rw [if_pos hx]
      rw [hsp] at hpt
      rcases List.mem_cons.mp hpt with h | h
      · rw [h]
        exact ⟨rfl, le_refl x, hx⟩
      · obtain ⟨h1, h2, h3⟩ := ihf (x + step) xHi pt h
        exact ⟨h1, le_trans (by linarith) h2, h3⟩
    · have hsp : specGapPoints (f + 1) x xHi step y = [] := by
        show (if x < xHi then DataPoint.mk x y ::
            specGapPoints f (x + step) xHi step y else []) = _
        rw [if_neg hx]
      rw [hsp] at hpt
      exact absurd hpt (List.not_mem_nil pt)

theorem specGapFill_mem (c : Bool) (step : ℚ) (hstep : 0 < step) :
    ∀ (l : List DataPoint), ∀ pt ∈ specGapFill c step l,
      pt ∈ l ∨ ∃ pq ∈ l.zip l.tail, pq.1.X < pt.X ∧ pt.X < pq.2.X ∧
        pt.Y = if c then (pq.2.Y + pq.1.Y) / 2 else 0 := by
  intro l
  induction l with
  | nil =>
    intro pt hpt
    exact absurd hpt (List.not_mem_nil pt)
  | cons p t iht =>
    match t with
    | [] =>
      intro pt hpt
      have hpt1 : pt ∈ [p] := hpt
      exact Or.inl hpt1
    | q :: rest =>
      intro pt hpt
      have hsf : specGapFill c step (p :: q :: rest) =
          p :: ((if q.X - p.X > step then
              specGapPoints (gapFuel p.X q.X step) (p.X + step) q.X step
                (if c then (q.Y + p.Y) / 2 else 0)
            else []) ++ specGapFill c step (q :: rest)) := rfl
      rw [hsf] at hpt
      rcases List.mem_cons.mp hpt with h | hmem
      · exact Or.inl (by rw [h]; exact List.mem_cons_self p _)
      · rcases List.mem_append.mp hmem with hins | hrec
        · by_cases hgap : q.X - p.X > step
          · rw [if_pos hgap] at hins
            obtain ⟨hY, hlo, hhi⟩ := specGapPoints_mem step
              (if c then (q.Y + p.Y) / 2 else 0) (le_of_lt hstep)
              (gapFuel p.X q.X step) (p.X + step) q.X pt hins
            right
            exact ⟨(p, q), by simp, by linarith, hhi, hY⟩
          · rw [if_neg hgap] at hins
            exact absurd hins (List.not_mem_nil pt)
        · rcases iht pt hrec with h | ⟨pq, hpq, h1, h2, h3⟩
          · exact Or.inl (List.mem_cons_of_mem p h)
          · right
            refine ⟨pq, ?_, h1, h2, h3⟩
            show pq ∈ (p, q) :: (q :: rest).zip rest
            exact List.mem_cons_of_mem (p, q) (by simpa using hpq)

theorem gapFillGo_spec (c : Bool) (step : ℚ) (N0 : ℕ) :
    ∀ (l : List DataPoint) (m : ℕ), (m : ℚ) / (N0 : ℚ) ≤ 3/10 →
      (((m + wouldInsert step l : ℕ) : ℚ) / (N0 : ℚ) > 3/10 →
        gapFillGo c step N0 m l = .error .noValue) ∧
      (∀ out m2, gapFillGo c step N0 m l = .ok (out, m2) →
        out = specGapFill c step l) := by
  intro l
  induction l with
  | nil =>
    intro m hm
    exact ⟨fun h => absurd (by simpa [wouldInsert] using h) (not_lt.mpr hm),
      fun out m2 h => by
        simp only [gapFillGo, Except.ok.injEq, Prod.mk.injEq] at h
        rw [← h.1]
        rfl⟩
  | cons p t iht =>
    intro m hm
    match t with
    | [] =>
      refine ⟨fun h => absurd (by simpa [wouldInsert] using h) (not_lt.mpr hm),
        fun out m2 h => ?_⟩
      simp only [gapFillGo, Except.ok.injEq, Prod.mk.injEq] at h
      rw [← h.1]
      rfl
    | q :: rest =>
      by_cases hgap : q.X - p.X > step
      · have hunf : gapFillGo c step N0 m (p :: q :: rest) =
            match gapInsertLoop (gapFuel p.X q.X step) (p.X + step) q.X step
                (if c then (q.Y + p.Y) / 2 else 0) m N0 with
            | .error e => .error e
            | .ok (ins, m') =>
              match gapFillGo c step N0 m' (q :: rest) with
              | .error e => .error e
              | .ok (out, m2) => .ok (p :: (ins ++ out), m2) := by
          show (if q.X - p.X > step then _ else _) = _
          rw [if_pos hgap]
        have hWI : wouldInsert step (p :: q :: rest) =
            gapLen (gapFuel p.X q.X step) (p.X + step) q.X step +
              wouldInsert step (q :: rest) := by
          show (if q.X - p.X > step then _ else _) + _ = _
          rw [if_pos hgap]
        obtain ⟨I1, I2⟩ := gapInsertLoop_spec step (if c then (q.Y + p.Y) / 2 else 0) N0
          (gapFuel p.X q.X step) (p.X + step) q.X m hm
        by_cases hover :
            ((m + gapLen (gapFuel p.X q.X step) (p.X + step) q.X step : ℕ) : ℚ) /
              (N0 : ℚ) > 3/10
        · have herr := I1 hover
          constructor
          · intro _
            rw [hunf, herr]
          · intro out m2 hok
            rw [hunf, herr] at hok
            exact absurd hok (by simp)
        · push_neg at hover
          obtain ⟨ins, hok, hins⟩ : ∃ ins,
              gapInsertLoop (gapFuel p.X q.X step) (p.X + step) q.X step
                (if c then (q.Y + p.Y) / 2 else 0) m N0 =
                .ok (ins, m + gapLen (gapFuel p.X q.X step) (p.X + step) q.X step) ∧
              ins = specGapPoints (gapFuel p.X q.X step) (p.X + step) q.X step
                (if c then (q.Y + p.Y) / 2 else 0) :=
            ⟨_, I2 hover, rfl⟩
          obtain ⟨IH1, IH2⟩ :=
            iht (m + gapLen (gapFuel p.X q.X step) (p.X + step) q.X step) hover
          constructor
          · intro h
            have hsum : ((m + gapLen (gapFuel p.X q.X step) (p.X + step) q.X step +
                wouldInsert step (q :: rest) : ℕ) : ℚ) / (N0 : ℚ) > 3/10 := by
              rw [hWI] at h
              have harr : m + gapLen (gapFuel p.X q.X step) (p.X + step) q.X step +
                  wouldInsert step (q :: rest) =
                  m + (gapLen (gapFuel p.X q.X step) (p.X + step) q.X step +
                    wouldInsert step (q :: rest)) := by omega
              rw [harr]
              exact h
            rw [hunf, hok]
            show (match gapFillGo c step N0
                    (m + gapLen (gapFuel p.X q.X step) (p.X + step) q.X step)
                    (q :: rest) with
                  | Except.error e => Except.error e
                  | Except.ok (out, m2) => Except.ok (p :: (ins ++ out), m2)) =
                Except.error FcErr.noValue
            rw [IH1 hsum]
          · intro out m2 hout
            rw [hunf, hok] at hout
            replace hout : (match gapFillGo c step N0
                    (m + gapLen (gapFuel p.X q.X step) (p.X + step) q.X step)
                    (q :: rest) with
                  | Except.error e => Except.error e
                  | Except.ok (out, m2) => Except.ok (p :: (ins ++ out), m2)) =
                Except.ok (out, m2) := hout
            cases hrec : gapFillGo c step N0
                (m + gapLen (gapFuel p.X q.X step) (p.X + step) q.X step) (q :: rest) with
            | error e => rw [hrec] at hout; exact absurd hout (by simp)
            | ok r =>
              obtain ⟨out', m2'⟩ := r
              rw [hrec] at hout
              simp only [Except.ok.injEq, Prod.mk.injEq] at hout
              have hsf : specGapFill c step (p :: q :: rest) =
                  p :: (specGapPoints (gapFuel p.X q.X step) (p.X + step) q.X step
                      (if c then (q.Y + p.Y) / 2 else 0) ++
                    specGapFill c step (q :: rest)) := by
                show p :: ((if q.X - p.X > step then
                    specGapPoints (gapFuel p.X q.X step) (p.X + step) q.X step
                      (if c then (q.Y + p.Y) / 2 else 0) else []) ++
                    specGapFill c step (q :: rest)) = _
                rw [if_pos hgap]
              rw [← hout.1, hins, hsf, IH2 out' m2' hrec]
      · have hunf : gapFillGo c step N0 m (p :: q :: rest) =
            match gapFillGo c step N0 m (q :: rest) with
            | .error e => .error e
            | .ok (out, m2) => .ok (p :: out, m2) := by
          show (if q.X - p.X > step then _ else _) = _
          rw [if_neg hgap]
        have hWI : wouldInsert step (p :: q :: rest) = wouldInsert step (q :: rest) := by
          show (if q.X - p.X > step then _ else 0) + _ = _
          rw [if_neg hgap, Nat.zero_add]
        obtain ⟨IH1, IH2⟩ := iht m hm
        constructor
        · intro h
          rw [hWI] at h
          rw [hunf, IH1 h]
        · intro out m2 hout
          rw [hunf] at hout
          cases hrec : gapFillGo c step N0 m (q :: rest) with
          | error e => rw [hrec] at hout; exact absurd hout (by simp)
          | ok r =>
            obtain ⟨out', m2'⟩ := r
            rw [hrec] at hout
            simp only [Except.ok.injEq, Prod.mk.injEq] at hout
            have hsf : specGapFill c step (p :: q :: rest) =
                p :: ([] ++ specGapFill c step (q :: rest)) := by
              show p :: ((if q.X - p.X > step then
                  specGapPoints (gapFuel p.X q.X step) (p.X + step) q.X step
                    (if c then (q.Y + p.Y) / 2 else 0) else []) ++
                  specGapFill c step (q :: rest)) = _
              rw [if_neg hgap]
            rw [← hout.1, hsf, List.nil_append, IH2 out' m2' hrec]

/-- Claim C4: if the synthetic points that gap filling would insert
number more than 30% of the original point count, `PreprocessDataRange`s
gap-filling stage fails with `errNoValue` (the caller then pushes the
error and produces no forecast output); and a successful fill is exactly
the spec-side fill `specGapFill`, which keeps the original points in
order and inserts, between each adjacent pair whose distance exceeds the
step, the synthetic points at step intervals with ordinate the mean of
the two bracketing ordinates when data completion is enabled, else 0; in
particular (for a positive step) every point of a successful fill is
either an original point or an inserted point lying strictly between an
adjacent pair `(p, q)` of the input with `p.X < pt.X < q.X`, whose Y is
the mean `(q.Y + p.Y) / 2` of that bracketing pair when data completion
is enabled, else 0. -/
theorem gapFill_C4 (c : Bool) (step : ℚ) (l : List DataPoint) :
    (((wouldInsert step l : ℕ) : ℚ) / (l.length : ℚ) > 3/10 →
      gapFill c step l = .error .noValue) ∧
    (∀ out, gapFill c step l = .ok out → out = specGapFill c step l) ∧
    (0 < step → ∀ out, gapFill c step l = .ok out → ∀ pt ∈ out,
      pt ∈ l ∨ ∃ pq ∈ l.zip l.tail, pq.1.X < pt.X ∧ pt.X < pq.2.X ∧
        pt.Y = if c then (pq.2.Y + pq.1.Y) / 2 else 0) := by
  obtain ⟨H1, H2⟩ := gapFillGo_spec c step l.length l 0 (by norm_num)
  have hrefine : ∀ out, gapFill c step l = .ok out → out = specGapFill c step l := by
    intro out hout
    unfold gapFill at hout
    cases hrec : gapFillGo c step l.length 0 l with
    | error e => rw [hrec] at hout; exact absurd hout (by simp)
    | ok r =>
      obtain ⟨out', m2⟩ := r
      rw [hrec] at hout
      simp only [Except.ok.injEq] at hout
      rw [← hout]
      exact H2 out' m2 hrec
  refine ⟨?_, hrefine, ?_⟩
  · intro h
    unfold gapFill
    rw [H1 (by simpa using h)]
  · intro hstep out hout pt hpt
    rw [hrefine out hout] at hpt
    exact specGapFill_mem c step hstep l pt hpt

/-- Witness for `gapFill_C4`: for `l = [(0,0), (1,2), (11,4)]` and step 1
the single gap would insert 9 points, which exceeds 30% of the original
3, so gap filling aborts with `errNoValue`. -/
theorem gapFill_C4_witness :
    gapFill true 1 [⟨0, 0⟩, ⟨1, 2⟩, ⟨11, 4⟩] = .error .noValue :=
  (gapFill_C4 true 1 [⟨0, 0⟩, ⟨1, 2⟩, ⟨11, 4⟩]).1 (by
    norm_num [wouldInsert, gapLen, gapFuel])

theorem tsLoop_spec (E : ℚ → ℚ) :
    ∀ (fuel : ℕ) (f0 f1 f2 : ℚ),
      0 ≤ f0 → f0 ≤ f2 → f2 ≤ 1 → f1 = (f0 + f2) / 2 →
      f2 - f1 ≤ 2 ^ fuel * cfMinABCResolution →
      ∃ F0 F1 F2,
        tsLoop E fuel (f0, f1, f2) (E f0, E f1, E f2) =
          ((F0, F1, F2), (E F0, E F1, E F2)) ∧
        0 ≤ F0 ∧ F0 ≤ F1 ∧ F1 ≤ F2 ∧ F2 ≤ 1 ∧ F2 - F1 ≤ cfMinABCResolution := by
  intro fuel
  induction fuel with
  | zero =>
    intro f0 f1 f2 h0 h02 h2 hmid hw
    exact ⟨f0, f1, f2, rfl, h0, by rw [hmid]; linarith, by rw [hmid]; linarith, h2,
      by simpa using hw⟩
  | succ fuel ih =>
    intro f0 f1 f2 h0 h02 h2 hmid hw
    by_cases hcond : f2 - f1 > cfMinABCResolution
    · have hwidth : f1 - f0 = f2 - f1 := by rw [hmid]; ring
      by_cases hcmp : E f2 > E f0
      · have hstep : tsLoop E (fuel + 1) (f0, f1, f2) (E f0, E f1, E f2) =
            tsLoop E fuel (f0, (f0 + f1) / 2, f1) (E f0, E ((f0 + f1) / 2), E f1) := by
          show (if f2 - f1 > cfMinABCResolution then _ else _) = _
          rw [if_pos hcond, if_pos hcmp]
        rw [hstep]
        exact ih f0 ((f0 + f1) / 2) f1 h0 (by linarith) (by linarith) rfl
          (by rw [pow_succ] at hw; linarith)
      · have hstep : tsLoop E (fuel + 1) (f0, f1, f2) (E f0, E f1, E f2) =
            tsLoop E fuel (f1, (f1 + f2) / 2, f2) (E f1, E ((f1 + f2) / 2), E f2) := by
          show (if f2 - f1 > cfMinABCResolution then _ else _) = _
          rw [if_pos hcond, if_neg hcmp]
        rw [hstep]
        exact ih f1 ((f1 + f2) / 2) f2 (by linarith) (by linarith) h2 rfl
          (by rw [pow_succ] at hw; linarith)
    · have hstep : tsLoop E (fuel + 1) (f0, f1, f2) (E f0, E f1, E f2) =
          ((f0, f1, f2), (E f0, E f1, E f2)) := by
        show (if f2 - f1 > cfMinABCResolution then _ else _) = _
        rw [if_neg hcond]
      exact ⟨f0, f1, f2, hstep, h0, by rw [hmid]; linarith, by rw [hmid]; linarith, h2,
        not_lt.mp hcond⟩

theorem ternarySearch_spec (E : ℚ → ℚ) :
    ((E 0 = E (1/2) ∧ E (1/2) = E 1) → ternarySearch E = 0) ∧
    (0 ≤ ternarySearch E ∧ ternarySearch E ≤ 1) ∧
    (¬(E 0 = E (1/2) ∧ E (1/2) = E 1) →
      ∃ F0 F1 F2, 0 ≤ F0 ∧ F0 ≤ F1 ∧ F1 ≤ F2 ∧ F2 ≤ 1 ∧
        F2 - F1 ≤ cfMinABCResolution ∧
        (ternarySearch E = F0 ∨ ternarySearch E = F1 ∨ ternarySearch E = F2) ∧
        E (ternarySearch E) ≤ E F0 ∧ E (ternarySearch E) ≤ E F1 ∧
        E (ternarySearch E) ≤ E F2) := by
  by_cases hflat : E 0 = E (1/2) ∧ E (1/2) = E 1
  · have h0 : ternarySearch E = 0 := by
      unfold ternarySearch
      rw [if_pos hflat]
    exact ⟨fun _ => h0, by rw [h0]; norm_num, fun h => absurd hflat h⟩
  · obtain ⟨F0, F1, F2, heq, h0, h01, h12, h2, hres⟩ :=
      tsLoop_spec E 20 0 (1/2) 1 le_rfl (by norm_num) le_rfl (by norm_num)
        (by norm_num [cfMinABCResolution])
    have hts : ternarySearch E =
        tsSelect (F0, F1, F2) (E F0, E F1, E F2) := by
      unfold ternarySearch
      rw [if_neg hflat, heq]
    have hsel : (ternarySearch E = F0 ∨ ternarySearch E = F1 ∨ ternarySearch E = F2) ∧
        E (ternarySearch E) ≤ E F0 ∧ E (ternarySearch E) ≤ E F1 ∧
        E (ternarySearch E) ≤ E F2 := by
      rw [hts]
      unfold tsSelect
      by_cases hgt : E F2 > E F0
      · rw [if_pos hgt]
        by_cases hlow : E F0 < E F1
        · rw [if_pos hlow]
          exact ⟨Or.inl rfl, le_rfl, le_of_lt hlow, le_of_lt hgt⟩
        · rw [if_neg hlow]
          exact ⟨Or.inr (Or.inl rfl), not_lt.mp hlow, le_rfl,
            le_trans (not_lt.mp hlow) (le_of_lt hgt)⟩
      · rw [if_neg hgt]
        by_cases hlow : E F2 < E F1
        · rw [if_pos hlow]
          exact ⟨Or.inr (Or.inr rfl), not_lt.mp hgt, le_of_lt hlow, le_rfl⟩
        · rw [if_neg hlow]
          exact ⟨Or.inr (Or.inl rfl), le_trans (not_lt.mp hlow) (not_lt.mp hgt),
            le_rfl, not_lt.mp hlow⟩
    refine ⟨fun h => absurd h hflat, ?_,
      fun _ => ⟨F0, F1, F2, h0, h01, h12, h2, hres, hsel⟩⟩
    rcases hsel.1 with h | h | h <;> rw [h] <;> constructor <;> linarith

/-- Claim C5: after the optimization completes, α, β, γ all lie in
`[0, 1]`; for each optimized parameter, coinciding MSE values at 0, 0.5
and 1 make the search return 0 at once, and otherwise the bisection runs
until the bracketing interval is at most `0.001` and adopts whichever of
the three tracked candidates has the lowest MSE. -/
theorem CalcAlphaBetaGamma_C5 (bEDS : Bool) (E3 : ℚ → ℚ → ℚ → ℚ) :
    (0 ≤ (CalcAlphaBetaGamma bEDS E3).1 ∧ (CalcAlphaBetaGamma bEDS E3).1 ≤ 1) ∧
    (0 ≤ (CalcAlphaBetaGamma bEDS E3).2.1 ∧ (CalcAlphaBetaGamma bEDS E3).2.1 ≤ 1) ∧
    (0 ≤ (CalcAlphaBetaGamma bEDS E3).2.2 ∧ (CalcAlphaBetaGamma bEDS E3).2.2 ≤ 1) ∧
    (∀ E : ℚ → ℚ,
      ((E 0 = E (1/2) ∧ E (1/2) = E 1) → ternarySearch E = 0) ∧
      (¬(E 0 = E (1/2) ∧ E (1/2) = E 1) →
        ∃ F0 F1 F2, 0 ≤ F0 ∧ F0 ≤ F1 ∧ F1 ≤ F2 ∧ F2 ≤ 1 ∧
          F2 - F1 ≤ cfMinABCResolution ∧
          (ternarySearch E = F0 ∨ ternarySearch E = F1 ∨ ternarySearch E = F2) ∧
          E (ternarySearch E) ≤ E F0 ∧ E (ternarySearch E) ≤ E F1 ∧
          E (ternarySearch E) ≤ E F2)) := by
  refine ⟨?_, ?_, ?_, fun E => ⟨(ternarySearch_spec E).1, (ternarySearch_spec E).2.2⟩⟩
  · cases bEDS
    · exact (ternarySearch_spec _).2.1
    · exact (ternarySearch_spec _).2.1
  · cases bEDS
    · exact (ternarySearch_spec _).2.1
    · exact ⟨le_rfl, show (0 : ℚ) ≤ 1 by norm_num⟩
  · cases bEDS
    · exact (ternarySearch_spec _).2.1
    · exact (ternarySearch_spec _).2.1

/-- Witness for `CalcAlphaBetaGamma_C5`: a flat objective makes the
search return 0 immediately. -/
theorem CalcAlphaBetaGamma_C5_witness :
    ternarySearch (fun _ : ℚ => (5 : ℚ)) = 0 :=
  (((CalcAlphaBetaGamma_C5 true (fun _ _ _ => 5)).2.2.2 (fun _ => 5)).1 (by norm_num))

/-- Claim C10: on `maRange = [(5,1), (5,2)]` — a run of equal X values
extending to the last data point — every aggregation mode 1..7 evaluates
`maRange[i].X` at `i = mnCount` (one past the end): after the last
duplicate is erased the `while` condition reads `maRange[i].X` *before*
testing `i < mnCount`, so the out-of-range branch of the total embedding
is reached and the access is not in bounds. -/
theorem dupAggregate_oob :
    dupAggregate 1 [⟨5, 1⟩, ⟨5, 2⟩] = .error .oob ∧
    dupAggregate 2 [⟨5, 1⟩, ⟨5, 2⟩] = .error .oob ∧
    dupAggregate 3 [⟨5, 1⟩, ⟨5, 2⟩] = .error .oob ∧
    dupAggregate 4 [⟨5, 1⟩, ⟨5, 2⟩] = .error .oob ∧
    dupAggregate 5 [⟨5, 1⟩, ⟨5, 2⟩] = .error .oob ∧
    dupAggregate 6 [⟨5, 1⟩, ⟨5, 2⟩] = .error .oob ∧
    dupAggregate 7 [⟨5, 1⟩, ⟨5, 2⟩] = .error .oob := by
  refine ⟨?_, ?_, ?_, ?_, ?_, ?_, ?_⟩ <;>
    norm_num [dupAggregate, dupAggOuter, aggDispatch, aggLoopSum, aggLoopCount,
      aggLoopMax, aggLoopMin, aggLoopMedian, getE, setY, DBL_MAX]

theorem cCoef_pos (L : ℝ) (hL0 : 0 ≤ L) (hL1 : L ≤ 1) (i : ℕ) : 0 < cCoef L i := by
  unfold cCoef
  apply Real.sqrt_pos.mpr
  have ho : (0 : ℝ) ≤ 1 - L := by linarith
  have h1 : (0 : ℝ) ≤ L / (1 + (1 - L)) ^ 3 := by
    apply div_nonneg hL0
    positivity
  have h2 : (0 : ℝ) ≤ (1 + 4 * (1 - L) + 5 * (1 - L) * (1 - L)) +
      2 * (i : ℝ) * L * (1 + 3 * (1 - L)) + 2 * ((i * i : ℕ) : ℝ) * L * L := by
    have ha : (0 : ℝ) ≤ 1 + 4 * (1 - L) + 5 * (1 - L) * (1 - L) := by nlinarith
    have hb : (0 : ℝ) ≤ 2 * (i : ℝ) * L * (1 + 3 * (1 - L)) :=
      mul_nonneg (mul_nonneg (mul_nonneg (by norm_num) (Nat.cast_nonneg i)) hL0)
        (by linarith)
    have hc : (0 : ℝ) ≤ 2 * ((i * i : ℕ) : ℝ) * L * L :=
      mul_nonneg (mul_nonneg (mul_nonneg (by norm_num) (Nat.cast_nonneg _)) hL0) hL0
    linarith
  nlinarith

theorem GetEDSPredictionIntervalAt_whole (z rmse L step : ℝ) (k : ℕ)
    (hstep : 0 < step) (hk : 1 ≤ k) :
    GetEDSPredictionIntervalAt z rmse L step ((k : ℝ) * step) =
      z * rmse * cCoef L (k - 1) / cCoef L 0 := by
  have hdiv : ((k : ℝ) * step) / step = (k : ℝ) :=
    mul_div_cancel_right₀ _ (ne_of_gt hstep)
  have hfloor : ⌊((k : ℝ) * step) / step⌋ = (k : ℤ) := by
    rw [hdiv]
    exact Int.floor_natCast k
  have hfrac : (k : ℝ) * step - step * ((⌊((k : ℝ) * step) / step⌋ : ℤ) : ℝ) = 0 := by
    rw [hfloor]
    push_cast
    ring
  have hidx : (⌊((k : ℝ) * step) / step⌋ - 1).toNat = k - 1 := by
    rw [hfloor]
    omega
  unfold GetEDSPredictionIntervalAt
  rw [if_neg (by rw [hfrac]; exact fun h => h rfl), hidx]

/-- Claim C2, counterexample: with `z = rmse = 1`, `step = 1`,
`L = 0.5`, the prediction interval at `k = 2` whole steps is
`c[1]/c[0]` (`= √(56/27)/√(44/27)`), not the claimed `c[2]/c[0]`
(`= √(72/27)/√(44/27)`): the code indexes `c` at `nSteps = k - 1`. -/
theorem GetEDSPredictionInterval_counterexample :
    GetEDSPredictionIntervalAt 1 1 (1/2) 1 2 ≠
      1 * 1 * cCoef (1/2) 2 / cCoef (1/2) 0 := by
  have hwhole := GetEDSPredictionIntervalAt_whole 1 1 (1/2) 1 2 (by norm_num) (by norm_num)
  have htgt : ((2 : ℕ) : ℝ) * 1 = 2 := by norm_num
  rw [htgt] at hwhole
  rw [hwhole]
  have hc1 : cCoef (1/2) 1 = Real.sqrt ((56 : ℝ)/27) := by
    unfold cCoef
    congr 1
    norm_num
  have hc2 : cCoef (1/2) 2 = Real.sqrt ((72 : ℝ)/27) := by
    unfold cCoef
    congr 1
    norm_num
  have hlt : cCoef (1/2) 1 < cCoef (1/2) 2 := by
    rw [hc1, hc2]
    exact Real.sqrt_lt_sqrt (by norm_num) (by norm_num)
  have hc0 : (0 : ℝ) < cCoef (1/2) 0 := cCoef_pos (1/2) (by norm_num) (by norm_num) 0
  intro h
  have h2 : cCoef (1/2) 1 = cCoef (1/2) 2 := by
    have hstep : (2 : ℕ) - 1 = 1 := by norm_num
    rw [hstep] at h
    simp only [one_mul] at h
    have hmul : cCoef (1/2) 1 / cCoef (1/2) 0 * cCoef (1/2) 0 =
        cCoef (1/2) 2 / cCoef (1/2) 0 * cCoef (1/2) 0 := by rw [h]
    rwa [div_mul_cancel₀ _ (ne_of_gt hc0), div_mul_cancel₀ _ (ne_of_gt hc0)] at hmul
  exact ne_of_lt hlt h2

/-- Claim C2 (amended): at `k ≥ 1` whole steps beyond `X[N-1]`,
`GetEDSPredictionIntervals` emits `z·RMSE·c[k-1]/c[0]` (index `k-1`, not
`k`); in particular the first-step interval (`k = 1`) equals `z·RMSE`,
and the ratio `PI(k)/PI(1)` equals `c[k-1]/c[0]`. -/
theorem GetEDSPredictionInterval_amended (z rmse L step : ℝ) (k : ℕ)
    (hstep : 0 < step) (hk : 1 ≤ k) (hL0 : 0 ≤ L) (hL1 : L ≤ 1) :
    GetEDSPredictionIntervalAt z rmse L step ((k : ℝ) * step) =
      z * rmse * cCoef L (k - 1) / cCoef L 0 ∧
    GetEDSPredictionIntervalAt z rmse L step step = z * rmse ∧
    (z * rmse ≠ 0 →
      GetEDSPredictionIntervalAt z rmse L step ((k : ℝ) * step) /
        GetEDSPredictionIntervalAt z rmse L step step =
        cCoef L (k - 1) / cCoef L 0) := by
  have hc0 : (0 : ℝ) < cCoef L 0 := cCoef_pos L hL0 hL1 0
  have h1 : GetEDSPredictionIntervalAt z rmse L step step = z * rmse := by
    have hw := GetEDSPredictionIntervalAt_whole z rmse L step 1 hstep le_rfl
    rw [Nat.cast_one, one_mul] at hw
    rw [hw]
    norm_num
    exact mul_div_cancel_right₀ _ (ne_of_gt hc0)
  have hwk := GetEDSPredictionIntervalAt_whole z rmse L step k hstep hk
  refine ⟨hwk, h1, fun hz => ?_⟩
  rw [hwk, h1]
  field_simp
  ring

/-- Witness for `GetEDSPredictionInterval_amended`: `z = 2`, `rmse = 3`,
`L = 0.5`, `step = 1`, `k = 2`. -/
theorem GetEDSPredictionInterval_amended_witness :
    GetEDSPredictionIntervalAt 2 3 (1/2) 1 ((2 : ℕ) * (1 : ℝ)) =
      2 * 3 * cCoef (1/2) (2 - 1) / cCoef (1/2) 0 :=
  (GetEDSPredictionInterval_amended 2 3 (1/2) 1 2 (by norm_num) (by norm_num)
    (by norm_num) (by norm_num)).1

/-- Claim C6: the `RelationshipReference` children emitted for a
relationships part are exactly the `<Id, Type>` pairs of that part whose
`Type` is not one of the three blacklisted relation types, in order,
each carrying `SourceId` set to the pair's `Id`; blacklisted types never
yield a child. -/
theorem relationshipReference_C6 (rels : List (List (String × String))) :
    relationshipReferenceEvents rels =
      (((rels.map extractIdType).filter
          (fun it => !lcl_isOOXMLRelationBlacklist it.2)).map
        (fun it =>
          [SaxEvent.startElement "mdssi:RelationshipReference"
              [("xmlns:mdssi", NS_MDSSI), ("SourceId", it.1)],
            SaxEvent.endElement "mdssi:RelationshipReference"])).flatten := by
  induction rels with
  | nil => rfl
  | cons rPairs rels ih =>
    by_cases hbl : lcl_isOOXMLRelationBlacklist (extractIdType rPairs).2 = true
    · have hstep : relationshipReferenceEvents (rPairs :: rels) =
          relationshipReferenceEvents rels := by
        show (if lcl_isOOXMLRelationBlacklist (extractIdType rPairs).2 then _ else _) = _
        rw [if_pos hbl]
      rw [hstep, ih]
      simp [List.filter_cons, hbl]
    · have hbl2 : lcl_isOOXMLRelationBlacklist (extractIdType rPairs).2 = false :=
        Bool.eq_false_iff.mpr hbl
      have hstep : relationshipReferenceEvents (rPairs :: rels) =
          SaxEvent.startElement "mdssi:RelationshipReference"
              [("xmlns:mdssi", NS_MDSSI), ("SourceId", (extractIdType rPairs).1)] ::
            SaxEvent.endElement "mdssi:RelationshipReference" ::
            relationshipReferenceEvents rels := by
        show (if lcl_isOOXMLRelationBlacklist (extractIdType rPairs).2 then _ else _) = _
        rw [if_neg hbl]
      rw [hstep, ih]
      simp [List.filter_cons, hbl2]

theorem forall_notSP_append {l1 l2 : List SaxEvent}
    (h1 : ∀ e ∈ l1, isStartOf "xd:SignedProperties" e = false)
    (h2 : ∀ e ∈ l2, isStartOf "xd:SignedProperties" e = false) :
    ∀ e ∈ l1 ++ l2, isStartOf "xd:SignedProperties" e = false := by
  intro e he
  rcases List.mem_append.mp he with h | h
  · exact h1 e h
  · exact h2 e h

theorem isStartOf_SP_signedInfoRef (r : SignatureReferenceInformation) :
    ∀ e ∈ signedInfoRefEvents r, isStartOf "xd:SignedProperties" e = false := by
  obtain ⟨nType, ouURI, ouDigestValue⟩ := r
  cases nType with
  | sameDocument =>
    simp only [signedInfoRefEvents]
    apply forall_notSP_append
    · apply forall_notSP_append
      · simp [List.forall_mem_cons, isStartOf]
      · by_cases hid : ouURI = "idSignedProperties"
        · rw [if_pos hid]
          simp [List.forall_mem_cons, isStartOf]
        · rw [if_neg hid]
          intro e he
          exact absurd he (List.not_mem_nil e)
    · simp [List.forall_mem_cons, isStartOf]
  | binaryStream => intro e he; exact absurd he (List.not_mem_nil e)
  | xmlStream => intro e he; exact absurd he (List.not_mem_nil e)

theorem isStartOf_SP_relRef (rels : List (List (String × String))) :
    ∀ e ∈ relationshipReferenceEvents rels, isStartOf "xd:SignedProperties" e = false := by
  induction rels with
  | nil => intro e he; exact absurd he (List.not_mem_nil e)
  | cons rPairs rels ih =>
    intro e he
    by_cases hbl : lcl_isOOXMLRelationBlacklist (extractIdType rPairs).2 = true
    · have hstep : relationshipReferenceEvents (rPairs :: rels) =
          relationshipReferenceEvents rels := by
        show (if lcl_isOOXMLRelationBlacklist (extractIdType rPairs).2 then _ else _) = _
        rw [if_pos hbl]
      rw [hstep] at he
      exact ih e he
    · have hstep : relationshipReferenceEvents (rPairs :: rels) =
          SaxEvent.startElement "mdssi:RelationshipReference"
              [("xmlns:mdssi", NS_MDSSI), ("SourceId", (extractIdType rPairs).1)] ::
            SaxEvent.endElement "mdssi:RelationshipReference" ::
            relationshipReferenceEvents rels := by
        show (if lcl_isOOXMLRelationBlacklist (extractIdType rPairs).2 then _ else _) = _
        rw [if_neg hbl]
      rw [hstep] at he
      rcases List.mem_cons.mp he with h | h
      · rw [h]; rfl
      · rcases List.mem_cons.mp h with h2 | h2
        · rw [h2]; rfl
        · exact ih e h2

theorem isStartOf_SP_manifestRef (readRels : String → List (List (String × String)))
    (r : SignatureReferenceInformation) :
    ∀ e ∈ manifestRefEvents readRels r, isStartOf "xd:SignedProperties" e = false := by
  obtain ⟨nType, ouURI, ouDigestValue⟩ := r
  have hbody : ∀ e ∈
      ([SaxEvent.startElement "Reference" [("URI", ouURI)]] ++
        (if ouURI.endsWith
            "?ContentType=application/vnd.openxmlformats-package.relationships+xml" then
          [SaxEvent.startElement "Transforms" [],
           SaxEvent.startElement "Transform" [("Algorithm", ALGO_RELATIONSHIP)]] ++
          relationshipReferenceEvents (readRels (relPartName ouURI)) ++
          [SaxEvent.endElement "Transform",
           SaxEvent.startElement "Transform" [("Algorithm", ALGO_C14N)],
           SaxEvent.endElement "Transform",
           SaxEvent.endElement "Transforms"]
         else []) ++
        [SaxEvent.startElement "DigestMethod" [("Algorithm", ALGO_XMLDSIGSHA256)],
         SaxEvent.endElement "DigestMethod",
         SaxEvent.startElement "DigestValue" [],
         SaxEvent.characters ouDigestValue,
         SaxEvent.endElement "DigestValue",
         SaxEvent.endElement "Reference"]),
      isStartOf "xd:SignedProperties" e = false := by
    apply forall_notSP_append
    · apply forall_notSP_append
      · simp [List.forall_mem_cons, isStartOf]
      · by_cases hct : ouURI.endsWith
            "?ContentType=application/vnd.openxmlformats-package.relationships+xml" = true
        · rw [if_pos hct]
          apply forall_notSP_append
          · apply forall_notSP_append
            · simp [List.forall_mem_cons, isStartOf]
            · exact isStartOf_SP_relRef _
          · simp [List.forall_mem_cons, isStartOf]
        · rw [if_neg hct]
          intro e he
          exact absurd he (List.not_mem_nil e)
    · simp [List.forall_mem_cons, isStartOf]
  cases nType with
  | sameDocument => intro e he; exact absurd he (List.not_mem_nil e)
  | binaryStream =>
    by_cases hbl : lcl_isOOXMLBlacklist ouURI = true
    · intro e he
      have hstep : manifestRefEvents readRels ⟨.binaryStream, ouURI, ouDigestValue⟩ = [] := by
        simp only [manifestRefEvents]
        rw [if_pos hbl]
      rw [hstep] at he
      exact absurd he (List.not_mem_nil e)
    · intro e he
      have hstep : manifestRefEvents readRels ⟨.binaryStream, ouURI, ouDigestValue⟩ =
          ([SaxEvent.startElement "Reference" [("URI", ouURI)]] ++
            (if ouURI.endsWith
                "?ContentType=application/vnd.openxmlformats-package.relationships+xml" then
              [SaxEvent.startElement "Transforms" [],
               SaxEvent.startElement "Transform" [("Algorithm", ALGO_RELATIONSHIP)]] ++
              relationshipReferenceEvents (readRels (relPartName ouURI)) ++
              [SaxEvent.endElement "Transform",
               SaxEvent.startElement "Transform" [("Algorithm", ALGO_C14N)],
               SaxEvent.endElement "Transform",
               SaxEvent.endElement "Transforms"]
             else []) ++
            [SaxEvent.startElement "DigestMethod" [("Algorithm", ALGO_XMLDSIGSHA256)],
             SaxEvent.endElement "DigestMethod",
             SaxEvent.startElement "DigestValue" [],
             SaxEvent.characters ouDigestValue,
             SaxEvent.endElement "DigestValue",
             SaxEvent.endElement "Reference"]) := by
        simp only [manifestRefEvents]
        rw [if_neg hbl]
      rw [hstep] at he
      exact hbody e he
  | xmlStream =>
    by_cases hbl : lcl_isOOXMLBlacklist ouURI = true
    · intro e he
      have hstep : manifestRefEvents readRels ⟨.xmlStream, ouURI, ouDigestValue⟩ = [] := by
        simp only [manifestRefEvents]
        rw [if_pos hbl]
      rw [hstep] at he
      exact absurd he (List.not_mem_nil e)
    · intro e he
      have hstep : manifestRefEvents readRels ⟨.xmlStream, ouURI, ouDigestValue⟩ =
          ([SaxEvent.startElement "Reference" [("URI", ouURI)]] ++
            (if ouURI.endsWith
                "?ContentType=application/vnd.openxmlformats-package.relationships+xml" then
              [SaxEvent.startElement "Transforms" [],
               SaxEvent.startElement "Transform" [("Algorithm", ALGO_RELATIONSHIP)]] ++
              relationshipReferenceEvents (readRels (relPartName ouURI)) ++
              [SaxEvent.endElement "Transform",
               SaxEvent.startElement "Transform" [("Algorithm", ALGO_C14N)],
               SaxEvent.endElement "Transform",
               SaxEvent.endElement "Transforms"]
             else []) ++
            [SaxEvent.startElement "DigestMethod" [("Algorithm", ALGO_XMLDSIGSHA256)],
             SaxEvent.endElement "DigestMethod",
             SaxEvent.startElement "DigestValue" [],
             SaxEvent.characters ouDigestValue,
             SaxEvent.endElement "DigestValue",
             SaxEvent.endElement "Reference"]) := by
        simp only [manifestRefEvents]
        rw [if_neg hbl]
      rw [hstep] at he
      exact hbody e he

theorem isStartOf_SP_header :
    ∀ e ∈ ooxmlHeaderEvents, isStartOf "xd:SignedProperties" e = false := by
  simp [ooxmlHeaderEvents, List.forall_mem_cons, isStartOf]

theorem isStartOf_SP_mid (info : SignatureInformation) :
    ∀ e ∈ ooxmlMidEvents info, isStartOf "xd:SignedProperties" e = false := by
  simp [ooxmlMidEvents, List.forall_mem_cons, isStartOf]

theorem isStartOf_SP_props (info : SignatureInformation) :
    ∀ e ∈ ooxmlPropsEvents info, isStartOf "xd:SignedProperties" e = false := by
  simp [ooxmlPropsEvents, List.forall_mem_cons, isStartOf]

theorem isStartOf_SP_tail :
    ∀ e ∈ ooxmlTailEvents, isStartOf "xd:SignedProperties" e = false := by
  simp [ooxmlTailEvents, List.forall_mem_cons, isStartOf]

/-- Claim C7, counterexample: with `LO_TESTNAME` set (`bTest = true`), on
a signature record with empty fields and no references, the OOXML output
still contains the (empty) `xd:QualifyingProperties` element — the
`getenv("LO_TESTNAME")` guard (xsecctl.cxx:1299-1300) suppresses only
the `xd:SignedProperties` subtree inside it, while the
`xd:QualifyingProperties` start/end elements are emitted
unconditionally; so the output is not free of a `QualifyingProperties`
subtree. -/
theorem exportOOXML_testmode_counterexample :
    SaxEvent.startElement "xd:QualifyingProperties"
        [("xmlns:xd", NS_XD), ("Target", "#idPackageSignature")] ∈
      exportOOXMLSignature true (fun _ => [])
        ⟨"", "", "", "", "", "", "", "", []⟩ := by
  simp [exportOOXMLSignature, ooxmlPropsEvents]

/-- Claim C7 (amended): whenever `LO_TESTNAME` is set, the OOXML
signature output of `exportOOXMLSignature` still contains the
`xd:QualifyingProperties` element, but it is empty: no
`xd:SignedProperties` element (the XAdES signed-properties subtree) is
ever emitted; and `isXML` returns true for every URI. -/
theorem exportOOXMLSignature_testmode
    (readRels : String → List (List (String × String)))
    (info : SignatureInformation) :
    (SaxEvent.startElement "xd:QualifyingProperties"
        [("xmlns:xd", NS_XD), ("Target", "#idPackageSignature")] ∈
      exportOOXMLSignature true readRels info) ∧
    (∀ e ∈ exportOOXMLSignature true readRels info,
      isStartOf "xd:SignedProperties" e = false) ∧
    (∀ (eqPath : String → String → Bool) (manifest : List (List (String × String)))
      (uri : String), isXML true eqPath manifest uri = true) := by
  refine ⟨?_, ?_, fun eqPath manifest uri => rfl⟩
  · simp [exportOOXMLSignature, ooxmlPropsEvents]
  · intro e he
    simp only [exportOOXMLSignature, List.mem_append] at he
    rcases he with (((((he | he) | he) | he) | he) | he) | he
    · exact isStartOf_SP_header e he
    · obtain ⟨r, _, hr⟩ := List.mem_flatMap.mp he
      exact isStartOf_SP_signedInfoRef r e hr
    · exact isStartOf_SP_mid info e he
    · obtain ⟨r, _, hr⟩ := List.mem_flatMap.mp he
      exact isStartOf_SP_manifestRef readRels r e hr
    · exact isStartOf_SP_props info e he
    · rw [if_pos trivial] at he
      exact absurd he (List.not_mem_nil e)
    · exact isStartOf_SP_tail e he

/-- Claim C8: in every state with the security components initialized
and the sticky flag clear (and the ElementStackKeeper present), after a
`blockingStatusChanged` or `collectionStatusChanged` callback the
SAXEventKeeper is connected iff the updated `collecting ∨ blocking`
holds, the ElementStackKeeper's `stop()` is called exactly at a
disengaged-to-engaged transition, and its `start()` exactly at an
engaged-to-disengaged transition. -/
theorem saxChain_C8 (co : SecCompStatus) (s : ChainState) (b : Bool)
    (hstat : s.status = .initialized) (hsticky : s.sticky = false)
    (hesk : s.eskPresent = true) :
    ((blockingStatusChanged co s b).1.connected = (s.collecting || b)) ∧
    (ChainAction.eskStop ∈ (blockingStatusChanged co s b).2 ↔
      (s.connected = false ∧ (s.collecting || b) = true)) ∧
    (ChainAction.eskStart ∈ (blockingStatusChanged co s b).2 ↔
      (s.connected = true ∧ (s.collecting || b) = false)) ∧
    ((collectionStatusChanged co s b).1.connected = (b || s.blocking)) ∧
    (ChainAction.eskStop ∈ (collectionStatusChanged co s b).2 ↔
      (s.connected = false ∧ (b || s.blocking) = true)) ∧
    (ChainAction.eskStart ∈ (collectionStatusChanged co s b).2 ↔
      (s.connected = true ∧ (b || s.blocking) = false)) := by
  obtain ⟨conn, coll, blk, stk, stat, prev, esk⟩ := s
  simp only at hstat hsticky hesk
  subst hstat hsticky hesk
  revert b conn coll blk prev
  cases co <;> decide

/-- Witness for `saxChain_C8`: a disengaged, initialized, non-sticky
state receiving `blockingStatusChanged(true)` becomes connected. -/
theorem saxChain_C8_witness :
    (blockingStatusChanged .initialized
      ⟨false, false, false, false, .initialized, true, true⟩ true).1.connected =
      (false || true) :=
  (saxChain_C8 .initialized
    ⟨false, false, false, false, .initialized, true, true⟩ true rfl rfl rfl).1

/-- Claim C9: every call to `DocumentSignatureManager::add` leaves
`maCurrentSignatureInformations` unchanged (the new signature goes only
into a freshly created temporary stream or sub-storage); and when `add`
returns `false` because the certificate reference is null or its
serial-number string is empty, no manager state is modified at all. -/
theorem add_C9 (m : ManagerState) (xCert : Option SigCert) (rDescription : String)
    (bTest : Bool) (eqPath : String → String → Bool) (aElements : List String) :
    ((add m xCert rDescription bTest eqPath aElements).1.currentSignatureInformations =
      m.currentSignatureInformations) ∧
    ((xCert = none ∨ ∃ c, xCert = some c ∧ c.serialNumber = "") →
      (add m xCert rDescription bTest eqPath aElements).1 = m ∧
      (add m xCert rDescription bTest eqPath aElements).2.1 = false) := by
  cases xCert with
  | none => exact ⟨rfl, fun _ => ⟨rfl, rfl⟩⟩
  | some cert =>
    by_cases hs : cert.serialNumber = ""
    · constructor
      · show ((if cert.serialNumber = "" then (m, false, none) else _) :
            ManagerState × Bool × Option ℕ).1.currentSignatureInformations = _
        rw [if_pos hs]
      · intro _
        constructor
        · show ((if cert.serialNumber = "" then (m, false, none) else _) :
              ManagerState × Bool × Option ℕ).1 = m
          rw [if_pos hs]
        · show ((if cert.serialNumber = "" then (m, false, none) else _) :
              ManagerState × Bool × Option ℕ).2.1 = false
          rw [if_pos hs]
    · constructor
      · show ((if cert.serialNumber = "" then (m, false, none) else _) :
            ManagerState × Bool × Option ℕ).1.currentSignatureInformations = _
        rw [if_neg hs]
      · intro h
        rcases h with h | ⟨c, hc, hser⟩
        · exact absurd h (by simp)
        · rw [Option.some.injEq] at hc
          rw [← hc] at hser
          exact absurd hser hs

/-- Witness for `add_C9`: adding with a null certificate leaves a
concrete manager state untouched and returns `false`. -/
theorem add_C9_witness :
    (add ⟨[], ⟨false, 1, []⟩, none, none, [], false⟩ none "" false
        (fun _ _ => true) []).1 =
      ⟨[], ⟨false, 1, []⟩, none, none, [], false⟩ :=
  ((add_C9 ⟨[], ⟨false, 1, []⟩, none, none, [], false⟩ none "" false
    (fun _ _ => true) []).2 (Or.inl rfl)).1

/-- Witness for `initData_base0`: at `Y = [1,3,2,4]`, `P = 2`, additive
mode, the successful run indeed has `Base[0] = Y[0] / PerIdx[0]`. -/
theorem initData_base0_witness :
    ((-4 : ℚ)/3) = ([1, 3, 2, 4] : List ℚ).getD 0 0 / ([-3/4, 3/4] : List ℚ).getD 0 0 :=
  (initData_base0 true [1, 3, 2, 4] 2
    { base0 := -4/3, trend0 := 1/2, perIdx := [-3/4, 3/4], forecast0 := 1 }).1
    (by norm_num [initData, prefillTrendData, prefillPerIdx, periodAverages,
      prefillBaseData, Finset.sum_range_succ, List.range_succ])

end LO
